import Mathlib

/-!
Verification of the always-on voice assistant core against its specification.

The development shallowly embeds the three core subsystems:
  * the audio fan-out bus (src/audio_stream.py, class AudioStreamManager),
  * the mode-transition coordinator (src/core/connection_coordinator.py,
    class ConnectionCoordinator),
  * the trigger validation pipeline (src/triggers/pipeline.py,
    src/triggers/request_queue.py, src/triggers/validator.py).

Python floats (trigger confidences) are modelled as rationals; machine
integers do not overflow in the ranges used.  Exceptions of external
collaborators are modelled by explicit boolean behaviour parameters, and
each Python method becomes a pure Lean function from state to state
together with a list of observable events.
-/

namespace AlwaysOn

/-- Consumer identity registered on the audio bus.  Python compares
consumer callbacks by object identity; the coordinator interacts with two
named callbacks (the transcriber's send callback and the transient
buffering closure), any other consumer is numbered. -/
inductive Consumer where
  | transcriber : Consumer
  | bufferer : Consumer
  | other : Nat → Consumer
deriving DecidableEq, Repr

/-- State of AudioStreamManager (src/audio_stream.py): the consumer list,
the failed-consumer set, and the pause bookkeeping.  The Python set
`failed_consumers` is modelled as a duplicate-free list. -/
structure AudioState where
  consumers : List Consumer
  failed : List Consumer
  pausedConsumers : List Consumer
  isPaused : Bool
deriving DecidableEq, Repr

/-- Insert into the failed set if absent (Python `set.add`). -/
def failedInsert (l : List Consumer) (c : Consumer) : List Consumer :=
  if c ∈ l then l else l ++ [c]

/-- AudioStreamManager.add_consumer: append the callback and discard it
from the failed set. -/
def addConsumer (s : AudioState) (c : Consumer) : AudioState :=
  { s with consumers := s.consumers ++ [c], failed := s.failed.erase c }

/-- AudioStreamManager.remove_consumer: remove the first occurrence if
present (Python `list.remove`) and discard from the failed set. -/
def removeConsumer (s : AudioState) (c : Consumer) : AudioState :=
  { s with
    consumers := if c ∈ s.consumers then s.consumers.erase c else s.consumers,
    failed := s.failed.erase c }

/-- AudioStreamManager.pause_microphone: when not already paused, stash
the whole consumer list aside and clear the active list. -/
def pauseMicrophone (s : AudioState) : AudioState :=
  if s.isPaused then s
  else { s with
         pausedConsumers := s.consumers,
         consumers := [],
         isPaused := true }

/-- AudioStreamManager.resume_microphone: when paused, restore the stashed
consumer list (dropping whatever was registered meanwhile) and discard
every restored consumer from the failed set. -/
def resumeMicrophone (s : AudioState) : AudioState :=
  if s.isPaused then
    { s with
      consumers := s.pausedConsumers,
      pausedConsumers := [],
      isPaused := false,
      failed := s.failed.filter (fun c => !(s.pausedConsumers.contains c)) }
  else s

/-- Behaviour of consumer callbacks: `throws c n = true` means invoking
consumer `c` with chunk `n` raises an exception. -/
def Throws : Type := Consumer → Nat → Bool

/-- One pass of the dispatch loop body of AudioStreamManager._audio_loop:
iterate over the snapshot `snap` of the consumer list, skipping consumers
that are in the failed-set snapshot `failedSnap`; each invocation is
recorded, and a throwing consumer is added to the live failed set `fl`.
Returns the updated failed set and the invocation record. -/
def dispatch (throws : Throws) (failedSnap : List Consumer) (chunk : Nat) :
    List Consumer → List Consumer → List Consumer × List (Consumer × Nat)
  | fl, [] => (fl, [])
  | fl, c :: rest =>
      if c ∈ failedSnap then dispatch throws failedSnap chunk fl rest
      else
        ((dispatch throws failedSnap chunk
            (if throws c chunk then failedInsert fl c else fl) rest).1,
         (c, chunk) ::
          (dispatch throws failedSnap chunk
            (if throws c chunk then failedInsert fl c else fl) rest).2)

/-- One capture tick of AudioStreamManager._audio_loop: snapshot consumers
and failed set under the lock, then dispatch the chunk outside the lock. -/
def deliverChunk (throws : Throws) (s : AudioState) (chunk : Nat) :
    AudioState × List (Consumer × Nat) :=
  ({ s with failed := (dispatch throws s.failed chunk s.failed s.consumers).1 },
   (dispatch throws s.failed chunk s.failed s.consumers).2)

/-- Operations on the audio bus that can interleave with delivery. -/
inductive AOp where
  | add : Consumer → AOp
  | remove : Consumer → AOp
  | pause : AOp
  | resume : AOp
  | deliver : Nat → AOp
deriving DecidableEq, Repr

/-- Single step of the audio-bus semantics. -/
def astep (throws : Throws) (s : AudioState) : AOp → AudioState × List (Consumer × Nat)
  | .add c => (addConsumer s c, [])
  | .remove c => (removeConsumer s c, [])
  | .pause => (pauseMicrophone s, [])
  | .resume => (resumeMicrophone s, [])
  | .deliver n => deliverChunk throws s n

/-- Run a trace of audio-bus operations, accumulating invocation events. -/
def arun (throws : Throws) (s : AudioState) : List AOp → AudioState × List (Consumer × Nat)
  | [] => (s, [])
  | op :: ops =>
      ((arun throws (astep throws s op).1 ops).1,
       (astep throws s op).2 ++ (arun throws (astep throws s op).1 ops).2)

/-! Basic lemmas about the dispatch loop. -/

theorem mem_failedInsert_self (l : List Consumer) (c : Consumer) :
    c ∈ failedInsert l c := by
  unfold failedInsert
  split
  · assumption
  · exact List.mem_append_right _ (List.mem_singleton.mpr rfl)

theorem mem_failedInsert_of_mem (l : List Consumer) (c x : Consumer) (hx : x ∈ l) :
    x ∈ failedInsert l c := by
  unfold failedInsert
  split
  · exact hx
  · exact List.mem_append_left _ hx

/-- A consumer in the failed-set snapshot is skipped: no invocation event. -/
theorem dispatch_skips_failedSnap (throws : Throws) (failedSnap : List Consumer)
    (chunk : Nat) (c : Consumer) (hc : c ∈ failedSnap) :
    ∀ snap fl m, (c, m) ∉ (dispatch throws failedSnap chunk fl snap).2 := by
  intro snap
  induction snap with
  | nil => intro fl m h; simp [dispatch] at h
  | cons d rest ih =>
      intro fl m h
      by_cases hd : d ∈ failedSnap
      · rw [dispatch, if_pos hd] at h
        exact ih _ _ h
      · rw [dispatch, if_neg hd] at h
        rcases List.mem_cons.mp h with h1 | h2
        · exact hd (by cases h1; exact hc)
        · exact ih _ _ h2

/-- A consumer in the snapshot that is not in the failed-set snapshot is
invoked with the chunk. -/
theorem dispatch_invokes (throws : Throws) (failedSnap : List Consumer)
    (chunk : Nat) (c : Consumer) (hcf : c ∉ failedSnap) :
    ∀ snap fl, c ∈ snap → (c, chunk) ∈ (dispatch throws failedSnap chunk fl snap).2 := by
  intro snap
  induction snap with
  | nil => intro fl h; cases h
  | cons d rest ih =>
      intro fl h
      rcases List.mem_cons.mp h with h1 | h2
      · subst h1
        rw [dispatch, if_neg hcf]
        exact List.mem_cons_self _ _
      · by_cases hd : d ∈ failedSnap
        · rw [dispatch, if_pos hd]; exact ih _ h2
        · rw [dispatch, if_neg hd]
          exact List.mem_cons_of_mem _ (ih _ h2)

/-- The failed set only grows during dispatch. -/
theorem dispatch_failed_mono (throws : Throws) (failedSnap : List Consumer)
    (chunk : Nat) (x : Consumer) :
    ∀ snap fl, x ∈ fl → x ∈ (dispatch throws failedSnap chunk fl snap).1 := by
  intro snap
  induction snap with
  | nil => intro fl h; simpa [dispatch] using h
  | cons d rest ih =>
      intro fl h
      by_cases hd : d ∈ failedSnap
      · rw [dispatch, if_pos hd]; exact ih _ h
      · rw [dispatch, if_neg hd]
        refine ih _ ?_
        split
        · exact mem_failedInsert_of_mem _ _ _ h
        · exact h

/-- A throwing consumer present in the snapshot and not skipped ends up in
the failed set produced by the dispatch loop. -/
theorem dispatch_marks_failed (throws : Throws) (failedSnap : List Consumer)
    (chunk : Nat) (c : Consumer) (hcf : c ∉ failedSnap)
    (hthrow : throws c chunk = true) :
    ∀ snap fl, c ∈ snap → c ∈ (dispatch throws failedSnap chunk fl snap).1 := by
  intro snap
  induction snap with
  | nil => intro fl h; cases h
  | cons d rest ih =>
      intro fl h
      rcases List.mem_cons.mp h with h1 | h2
      · subst h1
        rw [dispatch, if_neg hcf]
        refine dispatch_failed_mono _ _ _ _ _ _ ?_
        rw [if_pos hthrow]
        exact mem_failedInsert_self _ _
      · by_cases hd : d ∈ failedSnap
        · rw [dispatch, if_pos hd]; exact ih _ h2
        · rw [dispatch, if_neg hd]; exact ih _ h2

/-- Membership in the failed set is preserved by any step that is not an
add/remove of that consumer and not a resume, and such a step never
invokes the failed consumer. -/
theorem astep_preserves_failed (throws : Throws) (s : AudioState) (c : Consumer)
    (hf : c ∈ s.failed) (op : AOp)
    (hop : op ≠ AOp.add c ∧ op ≠ AOp.remove c ∧ op ≠ AOp.resume) :
    c ∈ (astep throws s op).1.failed ∧ ∀ m, (c, m) ∉ (astep throws s op).2 := by
  rcases hop with ⟨h1, h2, h3⟩
  cases op with
  | add d =>
      have hne : c ≠ d := fun h => h1 (by rw [h])
      constructor
      · simpa [astep, addConsumer] using (List.mem_erase_of_ne hne).mpr hf
      · intro m hm; simp [astep] at hm
  | remove d =>
      have hne : c ≠ d := fun h => h2 (by rw [h])
      constructor
      · simpa [astep, removeConsumer] using (List.mem_erase_of_ne hne).mpr hf
      · intro m hm; simp [astep] at hm
  | pause =>
      constructor
      · simp only [astep, pauseMicrophone]
        split <;> simpa
      · intro m hm; simp [astep] at hm
  | resume => exact absurd rfl h3
  | deliver n =>
      constructor
      · exact dispatch_failed_mono throws s.failed n c s.consumers s.failed hf
      · intro m
        exact dispatch_skips_failedSnap throws s.failed n c hf s.consumers s.failed m

/-- Along any trace that never re-adds, removes or resumes, a failed
consumer stays failed and is never invoked. -/
theorem arun_preserves_failed (throws : Throws) (s : AudioState) (c : Consumer)
    (ops : List AOp) (hf : c ∈ s.failed)
    (hops : ∀ op ∈ ops, op ≠ AOp.add c ∧ op ≠ AOp.remove c ∧ op ≠ AOp.resume) :
    c ∈ (arun throws s ops).1.failed ∧ ∀ m, (c, m) ∉ (arun throws s ops).2 := by
  induction ops generalizing s with
  | nil => exact ⟨hf, by intro m hm; simp [arun] at hm⟩
  | cons op rest ih =>
      have hop := hops op (List.mem_cons_self _ _)
      have hstep := astep_preserves_failed throws s c hf op hop
      have hrest := ih (astep throws s op).1 hstep.1
        (fun o ho => hops o (List.mem_cons_of_mem _ ho))
      refine ⟨hrest.1, ?_⟩
      intro m hm
      rw [arun] at hm
      rcases List.mem_append.mp hm with h | h
      · exact hstep.2 m h
      · exact hrest.2 m h

/-- From a paused state, steps other than resume preserve the pause flag
and the parked consumer list. -/
theorem arun_paused_stable (throws : Throws) (s : AudioState)
    (h : s.isPaused = true) (ops : List AOp) (hops : AOp.resume ∉ ops) :
    (arun throws s ops).1.isPaused = true ∧
    (arun throws s ops).1.pausedConsumers = s.pausedConsumers := by
  induction ops generalizing s with
  | nil => exact ⟨h, rfl⟩
  | cons op rest ih =>
      have hopr : op ≠ AOp.resume := fun he => hops (he ▸ List.mem_cons_self _ _)
      have hrest : AOp.resume ∉ rest := fun he => hops (List.mem_cons_of_mem _ he)
      have hstep : (astep throws s op).1.isPaused = true ∧
          (astep throws s op).1.pausedConsumers = s.pausedConsumers := by
        cases op with
        | add d => exact ⟨h, rfl⟩
        | remove d => exact ⟨h, rfl⟩
        | pause => simp [astep, pauseMicrophone, h]
        | resume => exact absurd rfl hopr
        | deliver n => exact ⟨h, rfl⟩
      have := ih (astep throws s op).1 hstep.1 hrest
      rw [arun]
      exact ⟨this.1, this.2.trans hstep.2⟩

/-- C3 (amended): a consumer that throws on chunk `n` is invoked with that
chunk, marked failed, and — as long as the later trace contains no
re-registration, no removal of it, and no microphone resume — it is never
invoked again, while at every later point any currently registered
non-failed consumer still receives the delivered chunk.  (The amendment:
the original claim omits the resume exception; `resume_microphone` clears
failed markings, see the counterexample.) -/
theorem consumer_failure_isolated (throws : Throws) (s : AudioState)
    (c : Consumer) (n : Nat) (hc : c ∈ s.consumers) (hnf : c ∉ s.failed)
    (hthrow : throws c n = true) :
    (c, n) ∈ (deliverChunk throws s n).2 ∧
    c ∈ (deliverChunk throws s n).1.failed ∧
    (∀ d, d ∈ s.consumers → d ∉ s.failed → (d, n) ∈ (deliverChunk throws s n).2) ∧
    (∀ ops, (∀ op ∈ ops, op ≠ AOp.add c ∧ op ≠ AOp.remove c ∧ op ≠ AOp.resume) →
      (∀ m, (c, m) ∉ (arun throws (deliverChunk throws s n).1 ops).2) ∧
      (∀ d m,
        d ∈ (arun throws (deliverChunk throws s n).1 ops).1.consumers →
        d ∉ (arun throws (deliverChunk throws s n).1 ops).1.failed →
        (d, m) ∈ (deliverChunk throws (arun throws (deliverChunk throws s n).1 ops).1 m).2)) := by
  refine ⟨dispatch_invokes throws s.failed n c hnf s.consumers s.failed hc,
          dispatch_marks_failed throws s.failed n c hnf hthrow s.consumers s.failed hc,
          fun d hd hdf => dispatch_invokes throws s.failed n d hdf s.consumers s.failed hd,
          fun ops hops => ?_⟩
  have hfail : c ∈ (deliverChunk throws s n).1.failed :=
    dispatch_marks_failed throws s.failed n c hnf hthrow s.consumers s.failed hc
  refine ⟨(arun_preserves_failed throws _ c ops hfail hops).2, fun d m hd hdf => ?_⟩
  exact dispatch_invokes throws _ m d hdf _ _ hd

/-- Concrete witness for `consumer_failure_isolated`: with two registered
consumers where consumer 0 always throws, delivering chunk 1 invokes both,
marks consumer 0 failed, and after a further delivery of chunk 2 consumer
0 was not invoked again while consumer 1 received chunk 2. -/
theorem consumer_failure_isolated_witness :
    (Consumer.other 0, 1) ∈
      (deliverChunk (fun c _ => decide (c = Consumer.other 0))
        ⟨[Consumer.other 0, Consumer.other 1], [], [], false⟩ 1).2 ∧
    (∀ m, (Consumer.other 0, m) ∉
      (arun (fun c _ => decide (c = Consumer.other 0))
        (deliverChunk (fun c _ => decide (c = Consumer.other 0))
          ⟨[Consumer.other 0, Consumer.other 1], [], [], false⟩ 1).1
        [AOp.deliver 2]).2) := by
  have h := consumer_failure_isolated (fun c _ => decide (c = Consumer.other 0))
    ⟨[Consumer.other 0, Consumer.other 1], [], [], false⟩
    (Consumer.other 0) 1 (by decide) (by decide) (by decide)
  exact ⟨h.1, (h.2.2.2 [AOp.deliver 2] (by decide)).1⟩

/-- C3 counterexample: the claim as stated (a throwing consumer is never
invoked with any subsequent chunk absent re-registration via add_consumer
or removal) is false: a pause/resume cycle — neither an add_consumer nor a
removal — clears the failed marking, and the consumer is invoked again. -/
theorem consumer_failure_isolated_counterexample :
    (∀ op ∈ [AOp.deliver 1, AOp.pause, AOp.resume, AOp.deliver 2],
       op ≠ AOp.add (Consumer.other 0) ∧ op ≠ AOp.remove (Consumer.other 0)) ∧
    (Consumer.other 0, 1) ∈
      (arun (fun c _ => decide (c = Consumer.other 0))
        ⟨[Consumer.other 0], [], [], false⟩
        [AOp.deliver 1, AOp.pause, AOp.resume, AOp.deliver 2]).2 ∧
    (Consumer.other 0, 2) ∈
      (arun (fun c _ => decide (c = Consumer.other 0))
        ⟨[Consumer.other 0], [], [], false⟩
        [AOp.deliver 1, AOp.pause, AOp.resume, AOp.deliver 2]).2 := by
  decide

/-- C10: resume_microphone restores exactly the consumer set saved by the
preceding pause_microphone (anything added while paused is discarded),
clears the pause state, unmarks every restored consumer in the failed set,
and every restored consumer — including one that had thrown earlier — is
invoked again on the next delivered chunk. -/
theorem pause_resume_restores (throws : Throws) (s : AudioState)
    (h : s.isPaused = false) (mid : List AOp) (hmid : AOp.resume ∉ mid) :
    (resumeMicrophone (arun throws (pauseMicrophone s) mid).1).consumers = s.consumers ∧
    (resumeMicrophone (arun throws (pauseMicrophone s) mid).1).isPaused = false ∧
    (resumeMicrophone (arun throws (pauseMicrophone s) mid).1).pausedConsumers = [] ∧
    (∀ c ∈ s.consumers,
      c ∉ (resumeMicrophone (arun throws (pauseMicrophone s) mid).1).failed) ∧
    (∀ c ∈ s.consumers, ∀ m,
      (c, m) ∈
        (deliverChunk throws
          (resumeMicrophone (arun throws (pauseMicrophone s) mid).1) m).2) := by
  have hp1 : (pauseMicrophone s).isPaused = true := by
    simp [pauseMicrophone, h]
  have hp2 : (pauseMicrophone s).pausedConsumers = s.consumers := by
    simp [pauseMicrophone, h]
  have hstab := arun_paused_stable throws (pauseMicrophone s) hp1 mid hmid
  have hpc : (arun throws (pauseMicrophone s) mid).1.pausedConsumers = s.consumers :=
    hstab.2.trans hp2
  have hru : resumeMicrophone (arun throws (pauseMicrophone s) mid).1 =
      { (arun throws (pauseMicrophone s) mid).1 with
        consumers := s.consumers,
        pausedConsumers := [],
        isPaused := false,
        failed := (arun throws (pauseMicrophone s) mid).1.failed.filter
          (fun c => !(s.consumers.contains c)) } := by
    rw [resumeMicrophone, if_pos hstab.1, hpc]
  have hnotfailed : ∀ c ∈ s.consumers,
      c ∉ (resumeMicrophone (arun throws (pauseMicrophone s) mid).1).failed := by
    intro c hcmem hcf
    rw [hru] at hcf
    simp only [List.mem_filter, Bool.not_eq_true'] at hcf
    exact absurd (List.elem_eq_true_of_mem hcmem) (by simpa using hcf.2)
  refine ⟨by rw [hru], by rw [hru], by rw [hru], hnotfailed, ?_⟩
  intro c hcmem m
  have hcc : c ∈ (resumeMicrophone (arun throws (pauseMicrophone s) mid).1).consumers := by
    rw [hru]; exact hcmem
  exact dispatch_invokes throws _ m c (hnotfailed c hcmem) _ _ hcc

/-- Concrete witness for `pause_resume_restores`: consumer 0 is failed and
consumer 1 was added while paused; after resume only consumer 0 is
registered, its failed mark is cleared, and it receives the next chunk. -/
theorem pause_resume_restores_witness :
    (resumeMicrophone (arun (fun _ _ => false)
        (pauseMicrophone ⟨[Consumer.other 0], [Consumer.other 0], [], false⟩)
        [AOp.add (Consumer.other 1)]).1).consumers = [Consumer.other 0] ∧
    (Consumer.other 0, 7) ∈
      (deliverChunk (fun _ _ => false)
        (resumeMicrophone (arun (fun _ _ => false)
          (pauseMicrophone ⟨[Consumer.other 0], [Consumer.other 0], [], false⟩)
          [AOp.add (Consumer.other 1)]).1) 7).2 := by
  have h := pause_resume_restores (fun _ _ => false)
    ⟨[Consumer.other 0], [Consumer.other 0], [], false⟩ rfl
    [AOp.add (Consumer.other 1)] (by decide)
  exact ⟨h.1, h.2.2.2.2 (Consumer.other 0) (by decide) 7⟩

/-!
Trigger pipeline data model (src/triggers).  A trigger (class BaseTrigger,
src/triggers/base.py) carries a name, an integer priority, an enabled
flag and a keyword list; a validation result (dataclass ValidationResult,
src/triggers/models.py) carries the triggered flag, a confidence (a
Python float, modelled as a rational) and a reason (extracted_intent and
metadata are omitted: no core code path reads them).
-/

structure Trigger where
  name : String
  priority : Int
  enabled : Bool
  keywords : List String
deriving DecidableEq, Repr

structure VResult where
  triggered : Bool
  confidence : ℚ
  reason : String
deriving DecidableEq, Repr

/-- Python str.lower applied characterwise, as a character list. -/
def lowerChars (s : String) : List Char :=
  s.data.map Char.toLower

/-- BaseTrigger.check_keywords: case-insensitive substring match of any
keyword against the text. -/
def checkKeywords (t : Trigger) (text : String) : Bool :=
  t.keywords.any (fun k => decide (lowerChars k <:+: lowerChars text))

/-- TriggerPipeline._check_keywords: the enabled triggers whose keywords
match, in registration order. -/
def matchingTriggers (triggers : List Trigger) (text : String) : List Trigger :=
  triggers.filter (fun t => t.enabled && checkKeywords t text)

/-- Outcome of one submitted validation future in
TriggerValidator.validate_triggers (src/triggers/validator.py):
`completed` is membership in the `done` set of `wait(..., timeout)`, and
`result` is the value `_run_validation` returned (`none` models both a
not-triggered rejection and an internal validation error, which the code
folds into returning None).  A list of outcomes is given in the iteration
order of the `done` set, which Python leaves unspecified. -/
structure VOutcome where
  trigger : Trigger
  completed : Bool
  result : Option VResult
deriving DecidableEq, Repr

/-- TriggerValidator.validate_triggers result collection: futures not
completed by the timeout are cancelled and skipped; completed futures
contribute their (trigger, result) pair when the result is truthy. -/
def validateTriggers (outcomes : List VOutcome) : List (Trigger × VResult) :=
  outcomes.filterMap
    (fun o => if o.completed then o.result.map (fun r => (o.trigger, r)) else none)

/-- The strict lexicographic order on Python tuples
`(priority, confidence)` used as sort key in
TriggerPipeline._select_best_trigger. -/
def keyLt (a b : Int × ℚ) : Prop :=
  a.1 < b.1 ∨ (a.1 = b.1 ∧ a.2 < b.2)

instance (a b : Int × ℚ) : Decidable (keyLt a b) := by
  unfold keyLt; infer_instance

theorem keyLt_irrefl (a : Int × ℚ) : ¬ keyLt a a := by
  unfold keyLt
  rintro (h | ⟨-, h⟩) <;> exact lt_irrefl _ h

theorem keyLt_trans {a b c : Int × ℚ} (h1 : keyLt a b) (h2 : keyLt b c) :
    keyLt a c := by
  unfold keyLt at *
  rcases h1 with h1 | ⟨e1, h1⟩ <;> rcases h2 with h2 | ⟨e2, h2⟩
  · exact Or.inl (h1.trans h2)
  · exact Or.inl (e2 ▸ h1)
  · exact Or.inl (e1 ▸ h2)
  · exact Or.inr ⟨e1.trans e2, h1.trans h2⟩

theorem keyLt_trichotomy (a b : Int × ℚ) : keyLt a b ∨ a = b ∨ keyLt b a := by
  unfold keyLt
  rcases lt_trichotomy a.1 b.1 with h | h | h
  · exact Or.inl (Or.inl h)
  · rcases lt_trichotomy a.2 b.2 with h2 | h2 | h2
    · exact Or.inl (Or.inr ⟨h, h2⟩)
    · exact Or.inr (Or.inl (Prod.ext h h2))
    · exact Or.inr (Or.inr (Or.inr ⟨h.symm, h2⟩))
  · exact Or.inr (Or.inr (Or.inl h))

theorem not_keyLt_trans {a b c : Int × ℚ}
    (hab : ¬ keyLt a b) (hbc : ¬ keyLt b c) : ¬ keyLt a c := by
  intro hac
  rcases keyLt_trichotomy a b with h | h | h
  · exact hab h
  · exact hbc (h ▸ hac)
  · exact hbc (keyLt_trans h hac)

/-- Python's builtin `max` with a key function: scan left to right and
replace the running best only on a strictly greater key, so the first
element attaining the maximal key wins. -/
def selGo {α : Type} (key : α → Int × ℚ) (best : α) : List α → α
  | [] => best
  | x :: xs => if keyLt (key best) (key x) then selGo key x xs else selGo key best xs

/-- Sort key of TriggerPipeline._select_best_trigger:
`(trigger.priority, result.confidence)`. -/
def selKey (p : Trigger × VResult) : Int × ℚ :=
  (p.1.priority, p.2.confidence)

/-- TriggerPipeline._select_best_trigger: `max` over the validated
(trigger, result) pairs; `none` on an empty list (the caller guards
against calling it then). -/
def selectBestTrigger : List (Trigger × VResult) → Option (Trigger × VResult)
  | [] => none
  | x :: xs => some (selGo selKey x xs)

theorem selGo_mem {α : Type} (key : α → Int × ℚ) (b : α) (l : List α) :
    selGo key b l ∈ b :: l := by
  induction l generalizing b with
  | nil => exact List.mem_cons_self _ _
  | cons x xs ih =>
      rw [selGo]
      split
      · exact List.mem_cons_of_mem _ (ih x)
      · rcases List.mem_cons.mp (ih b) with h | h
        · rw [h]; exact List.mem_cons_self _ _
        · exact List.mem_cons_of_mem _ (List.mem_cons_of_mem _ h)

theorem selGo_max {α : Type} (key : α → Int × ℚ) (b : α) (l : List α) :
    ∀ y ∈ b :: l, ¬ keyLt (key (selGo key b l)) (key y) := by
  induction l generalizing b with
  | nil =>
      intro y hy
      rcases List.mem_cons.mp hy with rfl | h
      · exact keyLt_irrefl _
      · cases h
  | cons x xs ih =>
      intro y hy
      by_cases hbx : keyLt (key b) (key x)
      · rw [selGo, if_pos hbx]
        rcases List.mem_cons.mp hy with h | h
        · rw [h]
          intro hlt
          exact ih x x (List.mem_cons_self _ _) (keyLt_trans hlt hbx)
        · exact ih x y h
      · rw [selGo, if_neg hbx]
        rcases List.mem_cons.mp hy with h | h
        · rw [h]
          exact ih b b (List.mem_cons_self _ _)
        · rcases List.mem_cons.mp h with h2 | h2
          · rw [h2]
            exact not_keyLt_trans (ih b b (List.mem_cons_self _ _)) hbx
          · exact ih b y (List.mem_cons_of_mem _ h2)

theorem selGo_of_max {α : Type} (key : α → Int × ℚ) (b : α) (l : List α)
    (h : ∀ y ∈ l, ¬ keyLt (key b) (key y)) : selGo key b l = b := by
  induction l with
  | nil => rfl
  | cons x xs ih =>
      rw [selGo, if_neg (h x (List.mem_cons_self _ _))]
      exact ih (fun y hy => h y (List.mem_cons_of_mem _ hy))

theorem selectBestTrigger_mem {l : List (Trigger × VResult)}
    {x : Trigger × VResult} (h : selectBestTrigger l = some x) : x ∈ l := by
  cases l with
  | nil => cases h
  | cons a as =>
      rw [selectBestTrigger] at h
      exact (Option.some_injective _ h) ▸ selGo_mem selKey a as

/-- C4 (amended): winner selection picks an element of the validated list
whose (priority, confidence) key is lexicographically maximal, and among
equal keys the EARLIEST element of the validated list wins — the validated
list is produced by iterating the `done` future set, whose order Python
does not guarantee to be registration order.  The claim's concrete
example holds: {A: priority 50, confidence 0.9} vs {B: priority 90,
confidence 0.1} selects B. -/
theorem winner_selection_amended (a : Trigger × VResult)
    (l : List (Trigger × VResult)) :
    selectBestTrigger (a :: l) = some (selGo selKey a l) ∧
    selGo selKey a l ∈ a :: l ∧
    (∀ y ∈ a :: l, ¬ keyLt (selKey (selGo selKey a l)) (selKey y)) ∧
    ((∀ y ∈ l, ¬ keyLt (selKey a) (selKey y)) → selGo selKey a l = a) ∧
    selectBestTrigger
      [(⟨"A", 50, true, []⟩, ⟨true, 9/10, ""⟩),
       (⟨"B", 90, true, []⟩, ⟨true, 1/10, ""⟩)] =
      some (⟨"B", 90, true, []⟩, ⟨true, 1/10, ""⟩) := by
  refine ⟨rfl, selGo_mem selKey a l, selGo_max selKey a l,
          selGo_of_max selKey a l, ?_⟩
  have hAB : keyLt (selKey (⟨"A", 50, true, []⟩, ⟨true, 9/10, ""⟩))
      (selKey (⟨"B", 90, true, []⟩, ⟨true, 1/10, ""⟩)) :=
    Or.inl (show (50 : Int) < 90 by norm_num)
  rw [selectBestTrigger, selGo, if_pos hAB, selGo]

/-- Witness for `winner_selection_amended` at a concrete two-element
validated list whose first element strictly dominates: the tie-breaking
clause applies and returns the first element. -/
theorem winner_selection_amended_witness :
    selGo selKey ((⟨"A", 90, true, []⟩ : Trigger), (⟨true, 1, ""⟩ : VResult))
      [((⟨"B", 50, true, []⟩ : Trigger), (⟨true, 1, ""⟩ : VResult))] =
      ((⟨"A", 90, true, []⟩ : Trigger), (⟨true, 1, ""⟩ : VResult)) := by
  refine (winner_selection_amended _ _).2.2.2.1 ?_
  intro y hy
  rcases List.mem_cons.mp hy with rfl | h
  · rintro (h | ⟨e, h⟩)
    · exact absurd h (by decide)
    · exact absurd e (by decide)
  · cases h

/-- C4 counterexample: ties are NOT broken by registration order.  Two
triggers C then D are registered in that order and validate with
identical priority and confidence; the `done` set of futures iterates here
as [D, C] (Python sets have no specified iteration order, so nothing
prevents this), and `_select_best_trigger` — `max`, which keeps the first
maximal element of the list it is given — returns D, not the
first-registered C. -/
theorem winner_selection_counterexample :
    validateTriggers
      [⟨⟨"D", 50, true, []⟩, true, some ⟨true, 1/2, ""⟩⟩,
       ⟨⟨"C", 50, true, []⟩, true, some ⟨true, 1/2, ""⟩⟩] =
      [(⟨"D", 50, true, []⟩, ⟨true, 1/2, ""⟩),
       (⟨"C", 50, true, []⟩, ⟨true, 1/2, ""⟩)] ∧
    selectBestTrigger
      (validateTriggers
        [⟨⟨"D", 50, true, []⟩, true, some ⟨true, 1/2, ""⟩⟩,
         ⟨⟨"C", 50, true, []⟩, true, some ⟨true, 1/2, ""⟩⟩]) =
      some (⟨"D", 50, true, []⟩, ⟨true, 1/2, ""⟩) ∧
    (⟨"D", 50, true, []⟩ : Trigger) ≠ ⟨"C", 50, true, []⟩ := by
  refine ⟨rfl, ?_, ?_⟩
  · show selectBestTrigger
      [((⟨"D", 50, true, []⟩ : Trigger), (⟨true, 1/2, ""⟩ : VResult)),
       ((⟨"C", 50, true, []⟩ : Trigger), (⟨true, 1/2, ""⟩ : VResult))] =
      some (⟨"D", 50, true, []⟩, ⟨true, 1/2, ""⟩)
    have hDC : ¬ keyLt
        (selKey ((⟨"D", 50, true, []⟩ : Trigger), (⟨true, 1/2, ""⟩ : VResult)))
        (selKey ((⟨"C", 50, true, []⟩ : Trigger), (⟨true, 1/2, ""⟩ : VResult))) := by
      show ¬ keyLt ((50 : Int), (1/2 : ℚ)) ((50 : Int), (1/2 : ℚ))
      exact keyLt_irrefl _
    rw [selectBestTrigger, selGo, if_neg hDC, selGo]
  · intro h
    exact absurd (congrArg Trigger.name h) (by decide)

/-- C7: a validation not completed by the timeout is excluded from the
returned results (and hence can never be the selected winner), never
surfaced as an error, while every validation that did complete in time
with a truthy result is included. -/
theorem validation_timeout_excluded (outcomes : List VOutcome) :
    (∀ p ∈ validateTriggers outcomes,
       ∃ o ∈ outcomes, o.trigger = p.1 ∧ o.completed = true ∧ o.result = some p.2) ∧
    (∀ o ∈ outcomes, o.completed = true → ∀ r, o.result = some r →
       (o.trigger, r) ∈ validateTriggers outcomes) ∧
    (∀ t, (∀ o ∈ outcomes, o.trigger = t → o.completed = false) →
       ∀ r, (t, r) ∉ validateTriggers outcomes) ∧
    (∀ x, selectBestTrigger (validateTriggers outcomes) = some x →
       ∃ o ∈ outcomes, o.trigger = x.1 ∧ o.completed = true) := by
  have hmem : ∀ p ∈ validateTriggers outcomes,
      ∃ o ∈ outcomes, o.trigger = p.1 ∧ o.completed = true ∧ o.result = some p.2 := by
    intro p hp
    rcases List.mem_filterMap.mp hp with ⟨o, ho, hfo⟩
    by_cases hc : o.completed
    · rw [if_pos hc] at hfo
      cases hr : o.result with
      | none => rw [hr] at hfo; cases hfo
      | some r =>
          rw [hr] at hfo
          simp only [Option.map_some'] at hfo
          have hp2 := Option.some.inj hfo
          subst hp2
          exact ⟨o, ho, rfl, hc, hr⟩
    · rw [if_neg hc] at hfo; cases hfo
  refine ⟨hmem, ?_, ?_, ?_⟩
  · intro o ho hc r hr
    refine List.mem_filterMap.mpr ⟨o, ho, ?_⟩
    rw [if_pos hc, hr]
    rfl
  · intro t ht r hmem2
    rcases hmem (t, r) hmem2 with ⟨o, ho, htr, hc, -⟩
    rw [ht o ho htr] at hc
    cases hc
  · intro x hx
    rcases hmem x (selectBestTrigger_mem hx) with ⟨o, ho, h1, h2, -⟩
    exact ⟨o, ho, h1, h2⟩

/-- Witness for `validation_timeout_excluded`: a completed triggered
validation is included, a timed-out one is excluded. -/
theorem validation_timeout_excluded_witness :
    (⟨"X", 10, true, []⟩, (⟨true, 1, ""⟩ : VResult)) ∈
      validateTriggers
        [⟨⟨"X", 10, true, []⟩, true, some ⟨true, 1, ""⟩⟩,
         ⟨⟨"Y", 99, true, []⟩, false, some ⟨true, 1, ""⟩⟩] ∧
    ∀ r, ((⟨"Y", 99, true, []⟩ : Trigger), r) ∉
      validateTriggers
        [⟨⟨"X", 10, true, []⟩, true, some ⟨true, 1, ""⟩⟩,
         ⟨⟨"Y", 99, true, []⟩, false, some ⟨true, 1, ""⟩⟩] := by
  refine ⟨?_, ?_⟩
  · exact (validation_timeout_excluded _).2.1 _ (List.mem_cons_self _ _) rfl _ rfl
  · refine (validation_timeout_excluded _).2.2.1 _ ?_
    intro o ho ht
    rcases List.mem_cons.mp ho with rfl | ho2
    · exact absurd (congrArg Trigger.name ht) (by decide)
    · rcases List.mem_cons.mp ho2 with rfl | ho3
      · rfl
      · cases ho3

/-!
Request queue (src/triggers/request_queue.py).  TriggerRequest models the
dataclass of the same name: id (a uuid, modelled by the counter value),
text, matched triggers, timestamp (not used by any decision, fixed to 0)
and request_number; the metadata dict is omitted (nothing reads it).
Notably the dataclass has NO execution flag of any kind.
-/

structure TriggerRequest where
  rid : Nat
  text : String
  triggers : List Trigger
  timestamp : Nat
  requestNumber : Nat
deriving DecidableEq, Repr

/-- State of RequestQueue: the FIFO queue (head = front) and the
monotonically increased `_request_counter`. -/
structure QueueState where
  queue : List TriggerRequest
  counter : Nat
deriving DecidableEq, Repr

/-- RequestQueue.add_request: bump the counter and append a request
numbered with it. -/
def addRequest (text : String) (triggers : List Trigger) (s : QueueState) : QueueState :=
  { queue := s.queue ++ [⟨s.counter + 1, text, triggers, 0, s.counter + 1⟩],
    counter := s.counter + 1 }

/-- Stage 2-3 of TriggerPipeline.process_transcription after
sanitization: enqueue a validation request when at least one enabled
trigger's keywords match, otherwise do nothing. -/
def enqueueTranscription (triggers : List Trigger) (text : String)
    (s : QueueState) : QueueState :=
  if matchingTriggers triggers text = [] then s
  else addRequest text (matchingTriggers triggers text) s

/-- RequestQueue._should_skip_request: drain the remaining queue, note
whether any drained request has a larger request_number, and put
everything back in order. -/
def shouldSkipRequest (req : TriggerRequest) (rest : List TriggerRequest) : Bool :=
  rest.any (fun r => decide (req.requestNumber < r.requestNumber))

/-- Observable events of the queue worker. -/
inductive QEvent where
  | executed : String → Nat → QEvent
  | skipped : Nat → QEvent
deriving DecidableEq, Repr

/-- TriggerPipeline._process_request: validate the request's triggers
(`venv t` gives, per trigger, whether its validation future completed
within the timeout and what `_run_validation` returned), then select and
execute the best validated trigger.  The function reads nothing but the
request itself: there is no re-check of the request counter after the
validation wait. -/
def processRequest (venv : Trigger → Bool × Option VResult)
    (req : TriggerRequest) : List QEvent :=
  match selectBestTrigger
      (validateTriggers (req.triggers.map (fun t => ⟨t, (venv t).1, (venv t).2⟩))) with
  | none => []
  | some p => [QEvent.executed p.1.name req.requestNumber]

/-- Enqueue a batch of transcription-produced requests (arrivals during a
worker iteration). -/
def enqueueAll (arrivals : List (String × List Trigger)) (s : QueueState) : QueueState :=
  arrivals.foldl (fun t a => addRequest a.1 a.2 t) s

/-- One iteration of RequestQueue._process_queue: dequeue the front
request, drop it when `_should_skip_request` sees a newer one, otherwise
run the processing callback.  `arrivals` are requests enqueued by
process_transcription while this iteration runs; the callback's outcome
does not depend on them. -/
def workerStep (venv : Trigger → Bool × Option VResult)
    (arrivals : List (String × List Trigger)) (s : QueueState) :
    QueueState × List QEvent :=
  match s.queue with
  | [] => (enqueueAll arrivals s, [])
  | req :: rest =>
      if shouldSkipRequest req rest then
        (enqueueAll arrivals ⟨rest, s.counter⟩, [QEvent.skipped req.requestNumber])
      else
        (enqueueAll arrivals ⟨rest, s.counter⟩, processRequest venv req)

/-- Interleaved operations on the queue: an enqueue by the transcription
thread, or one worker iteration with the requests that arrive during it. -/
inductive QOp where
  | enq : String → List Trigger → QOp
  | work : (Trigger → Bool × Option VResult) → List (String × List Trigger) → QOp

def qstep (s : QueueState) : QOp → QueueState × List QEvent
  | .enq text triggers => (addRequest text triggers s, [])
  | .work venv arrivals => workerStep venv arrivals s

def qrun (s : QueueState) : List QOp → QueueState × List QEvent
  | [] => (s, [])
  | op :: ops =>
      ((qrun (qstep s op).1 ops).1, (qstep s op).2 ++ (qrun (qstep s op).1 ops).2)

/-- Number of action executions recorded for request number `n`. -/
def execCount (evs : List QEvent) (n : Nat) : Nat :=
  (evs.filter (fun e =>
    match e with
    | QEvent.executed _ m => m == n
    | QEvent.skipped _ => false)).length

def queueNumbers (s : QueueState) : List Nat :=
  s.queue.map (fun r => r.requestNumber)

/-- Queue invariant: request numbers strictly increase along the queue
and never exceed the counter. -/
def QInv (s : QueueState) : Prop :=
  List.Pairwise (· < ·) (queueNumbers s) ∧ ∀ n ∈ queueNumbers s, n ≤ s.counter

theorem qinv_addRequest (text : String) (triggers : List Trigger)
    (s : QueueState) (h : QInv s) : QInv (addRequest text triggers s) := by
  rcases h with ⟨hp, hb⟩
  constructor
  · rw [queueNumbers]
    simp only [addRequest, List.map_append, List.map_cons, List.map_nil]
    refine List.pairwise_append.mpr ⟨hp, List.pairwise_singleton _ _, ?_⟩
    intro a ha b hb2
    rcases List.mem_singleton.mp hb2 with rfl
    exact Nat.lt_succ_of_le (hb a ha)
  · intro n hn
    rw [queueNumbers] at hn
    simp only [addRequest, List.map_append, List.map_cons, List.map_nil] at hn
    rcases List.mem_append.mp hn with h1 | h1
    · exact Nat.le_succ_of_le (hb n h1)
    · rcases List.mem_singleton.mp h1 with rfl
      exact Nat.le_refl _

theorem counter_le_addRequest (text : String) (triggers : List Trigger)
    (s : QueueState) : s.counter ≤ (addRequest text triggers s).counter :=
  Nat.le_succ _

theorem notMem_addRequest (text : String) (triggers : List Trigger)
    (s : QueueState) (n : Nat) (hn : n ∉ queueNumbers s) (hle : n ≤ s.counter) :
    n ∉ queueNumbers (addRequest text triggers s) := by
  intro hmem
  rw [queueNumbers] at hmem
  simp only [addRequest, List.map_append, List.map_cons, List.map_nil] at hmem
  rcases List.mem_append.mp hmem with h1 | h1
  · exact hn h1
  · rcases List.mem_singleton.mp h1 with rfl
    exact Nat.not_succ_le_self s.counter hle

theorem qinv_enqueueAll (arrivals : List (String × List Trigger))
    (s : QueueState) (h : QInv s) : QInv (enqueueAll arrivals s) := by
  induction arrivals generalizing s with
  | nil => exact h
  | cons a rest ih => exact ih _ (qinv_addRequest a.1 a.2 s h)

theorem counter_le_enqueueAll (arrivals : List (String × List Trigger))
    (s : QueueState) : s.counter ≤ (enqueueAll arrivals s).counter := by
  induction arrivals generalizing s with
  | nil => exact Nat.le_refl _
  | cons a rest ih =>
      exact Nat.le_trans (counter_le_addRequest a.1 a.2 s) (ih _)

theorem notMem_enqueueAll (arrivals : List (String × List Trigger))
    (s : QueueState) (n : Nat) (hn : n ∉ queueNumbers s) (hle : n ≤ s.counter) :
    n ∉ queueNumbers (enqueueAll arrivals s) := by
  induction arrivals generalizing s with
  | nil => exact hn
  | cons a rest ih =>
      exact ih _ (notMem_addRequest a.1 a.2 s n hn hle)
        (Nat.le_trans hle (counter_le_addRequest a.1 a.2 s))

theorem qinv_tail (req : TriggerRequest) (rest : List TriggerRequest) (c : Nat)
    (h : QInv ⟨req :: rest, c⟩) : QInv ⟨rest, c⟩ := by
  rcases h with ⟨hp, hb⟩
  rw [queueNumbers, List.map_cons] at hp hb
  exact ⟨(List.pairwise_cons.mp hp).2,
         fun n hn => hb n (List.mem_cons_of_mem _ hn)⟩

/-- Every execution event emitted by processRequest bears the processed
request's number. -/
theorem processRequest_number (venv : Trigger → Bool × Option VResult)
    (req : TriggerRequest) (t : String) (n : Nat)
    (h : QEvent.executed t n ∈ processRequest venv req) :
    n = req.requestNumber := by
  rw [processRequest] at h
  rcases hsel : selectBestTrigger
      (validateTriggers (req.triggers.map (fun t => ⟨t, (venv t).1, (venv t).2⟩))) with
    _ | p
  · rw [hsel] at h; cases h
  · rw [hsel] at h
    rcases List.mem_singleton.mp h with h2
    cases h2
    rfl

theorem execCount_le_one_processRequest (venv : Trigger → Bool × Option VResult)
    (req : TriggerRequest) (n : Nat) :
    execCount (processRequest venv req) n ≤ 1 := by
  rw [execCount]
  rcases hsel : selectBestTrigger
      (validateTriggers (req.triggers.map (fun t => ⟨t, (venv t).1, (venv t).2⟩))) with
    _ | p
  · rw [processRequest, hsel]
    exact Nat.zero_le _
  · rw [processRequest, hsel]
    exact le_trans (List.length_filter_le _ _) (le_refl 1)

theorem execCount_zero_ne (venv : Trigger → Bool × Option VResult)
    (req : TriggerRequest) (n : Nat) (hne : n ≠ req.requestNumber) :
    execCount (processRequest venv req) n = 0 := by
  rw [execCount, List.length_eq_zero, List.filter_eq_nil_iff]
  intro e he
  cases e with
  | skipped m => simp
  | executed t m =>
      have := processRequest_number venv req t m he
      subst this
      simpa using fun h => hne h.symm

theorem execCount_append (evs1 evs2 : List QEvent) (n : Nat) :
    execCount (evs1 ++ evs2) n = execCount evs1 n + execCount evs2 n := by
  rw [execCount, execCount, execCount, List.filter_append, List.length_append]

theorem qstep_enq (s : QueueState) (text : String) (triggers : List Trigger) :
    qstep s (QOp.enq text triggers) = (addRequest text triggers s, []) := rfl

theorem qstep_work (s : QueueState) (venv : Trigger → Bool × Option VResult)
    (arrivals : List (String × List Trigger)) :
    qstep s (QOp.work venv arrivals) = workerStep venv arrivals s := rfl

theorem workerStep_nil (venv : Trigger → Bool × Option VResult)
    (arrivals : List (String × List Trigger)) (c : Nat) :
    workerStep venv arrivals ⟨[], c⟩ = (enqueueAll arrivals ⟨[], c⟩, []) := rfl

theorem workerStep_cons (venv : Trigger → Bool × Option VResult)
    (arrivals : List (String × List Trigger)) (req : TriggerRequest)
    (rest : List TriggerRequest) (c : Nat) :
    workerStep venv arrivals ⟨req :: rest, c⟩ =
      if shouldSkipRequest req rest then
        (enqueueAll arrivals ⟨rest, c⟩, [QEvent.skipped req.requestNumber])
      else
        (enqueueAll arrivals ⟨rest, c⟩, processRequest venv req) := rfl

/-- A request number that is not in the queue and not above the counter
can never be executed in any later run. -/
theorem qrun_no_ghost_exec (ops : List QOp) (n : Nat) :
    ∀ s, QInv s → n ∉ queueNumbers s → n ≤ s.counter →
      execCount (qrun s ops).2 n = 0 := by
  induction ops with
  | nil => intro s _ _ _; rfl
  | cons op rest ih =>
      intro s hinv hn hle
      rw [qrun, execCount_append]
      cases op with
      | enq text triggers =>
          rw [qstep_enq]
          have h0 : execCount ([] : List QEvent) n = 0 := rfl
          rw [h0, Nat.zero_add]
          exact ih _ (qinv_addRequest _ _ _ hinv) (notMem_addRequest _ _ _ _ hn hle)
            (Nat.le_trans hle (counter_le_addRequest _ _ _))
      | work venv arrivals =>
          rcases s with ⟨q, c⟩
          rcases q with _ | ⟨req, qrest⟩
          · rw [qstep_work, workerStep_nil]
            have h0 : execCount ([] : List QEvent) n = 0 := rfl
            rw [h0, Nat.zero_add]
            exact ih _ (qinv_enqueueAll _ _ hinv) (notMem_enqueueAll _ _ _ hn hle)
              (Nat.le_trans hle (counter_le_enqueueAll arrivals _))
          · have hreqn : n ≠ req.requestNumber := by
              intro h
              refine hn ?_
              show n ∈ List.map (fun r => r.requestNumber) (req :: qrest)
              rw [List.map_cons, h]
              exact List.mem_cons_self _ _
            have hrest : n ∉ queueNumbers ⟨qrest, c⟩ := by
              intro h
              refine hn ?_
              show n ∈ List.map (fun r => r.requestNumber) (req :: qrest)
              rw [List.map_cons]
              exact List.mem_cons_of_mem _ h
            have htail : QInv (⟨qrest, c⟩ : QueueState) := qinv_tail req qrest c hinv
            rw [qstep_work, workerStep_cons]
            by_cases hskip : shouldSkipRequest req qrest
            · rw [if_pos hskip]
              have h0 : execCount [QEvent.skipped req.requestNumber] n = 0 := rfl
              rw [h0, Nat.zero_add]
              exact ih _ (qinv_enqueueAll _ _ htail)
                (notMem_enqueueAll _ _ _ hrest hle)
                (Nat.le_trans hle (counter_le_enqueueAll arrivals (⟨qrest, c⟩ : QueueState)))
            · rw [if_neg hskip]
              rw [execCount_zero_ne venv req n hreqn, Nat.zero_add]
              exact ih _ (qinv_enqueueAll _ _ htail)
                (notMem_enqueueAll _ _ _ hrest hle)
                (Nat.le_trans hle (counter_le_enqueueAll arrivals (⟨qrest, c⟩ : QueueState)))

/-- C8 (amended): starting from the empty queue, any interleaving of
enqueues and worker iterations executes each admitted request's winner at
most once — not because requests carry a single-fire flag (TriggerRequest
has no such field; see the counterexample), but because request numbers
are unique and the single worker dequeues each request at most once. -/
theorem request_executed_at_most_once (ops : List QOp) (n : Nat) :
    execCount (qrun ⟨[], 0⟩ ops).2 n ≤ 1 := by
  suffices h : ∀ ops2 s, QInv s → execCount (qrun s ops2).2 n ≤ 1 from
    h ops ⟨[], 0⟩ ⟨List.Pairwise.nil, fun n hn => absurd hn (List.not_mem_nil n)⟩
  intro ops2
  induction ops2 with
  | nil => intro s _; exact Nat.zero_le _
  | cons op rest ih =>
      intro s hinv
      rw [qrun, execCount_append]
      cases op with
      | enq text triggers =>
          rw [qstep_enq]
          have h0 : execCount ([] : List QEvent) n = 0 := rfl
          rw [h0, Nat.zero_add]
          exact ih _ (qinv_addRequest _ _ _ hinv)
      | work venv arrivals =>
          rcases s with ⟨q, c⟩
          rcases q with _ | ⟨req, qrest⟩
          · rw [qstep_work, workerStep_nil]
            have h0 : execCount ([] : List QEvent) n = 0 := rfl
            rw [h0, Nat.zero_add]
            exact ih _ (qinv_enqueueAll _ _ hinv)
          · have htail : QInv (⟨qrest, c⟩ : QueueState) := qinv_tail req qrest c hinv
            rw [qstep_work, workerStep_cons]
            by_cases hskip : shouldSkipRequest req qrest
            · rw [if_pos hskip]
              have h0 : execCount [QEvent.skipped req.requestNumber] n = 0 := rfl
              rw [h0, Nat.zero_add]
              exact ih _ (qinv_enqueueAll _ _ htail)
            · rw [if_neg hskip]
              show execCount (processRequest venv req) n +
                  execCount (qrun (enqueueAll arrivals ⟨qrest, c⟩) rest).2 n ≤ 1
              by_cases hn : n = req.requestNumber
              · have hnotmem : req.requestNumber ∉ queueNumbers ⟨qrest, c⟩ := by
                  intro hmem
                  have hpair := hinv.1
                  rw [queueNumbers, List.map_cons] at hpair
                  exact Nat.lt_irrefl _ ((List.pairwise_cons.mp hpair).1 _ hmem)
                have hle2 : req.requestNumber ≤ c := by
                  refine hinv.2 _ ?_
                  show req.requestNumber ∈ List.map (fun r => r.requestNumber) (req :: qrest)
                  rw [List.map_cons]
                  exact List.mem_cons_self _ _
                have hzero := qrun_no_ghost_exec rest req.requestNumber
                  (enqueueAll arrivals ⟨qrest, c⟩)
                  (qinv_enqueueAll _ _ htail)
                  (notMem_enqueueAll _ _ _ hnotmem hle2)
                  (Nat.le_trans hle2 (counter_le_enqueueAll arrivals (⟨qrest, c⟩ : QueueState)))
                rw [hn, hzero, Nat.add_zero]
                exact execCount_le_one_processRequest venv req req.requestNumber
              · rw [execCount_zero_ne venv req n hn, Nat.zero_add]
                exact ih _ (qinv_enqueueAll _ _ htail)

/-- C1 (amended): the supersede rule of RequestQueue acts only at dequeue
time.  A dequeued request is dropped unprocessed exactly when a request
with a larger request_number is already in the queue at that moment; but
when no newer request is queued at dequeue time, the request is validated
and its winning action executes regardless of any requests that arrive
during the validation wait — TriggerPipeline._process_request performs no
post-wait sequence re-check, so results are never discarded after
admission. -/
theorem supersede_dequeue_only (venv : Trigger → Bool × Option VResult)
    (arrivals : List (String × List Trigger)) (req : TriggerRequest)
    (rest : List TriggerRequest) (c : Nat) :
    ((∃ r ∈ rest, req.requestNumber < r.requestNumber) →
       (workerStep venv arrivals ⟨req :: rest, c⟩).2 =
         [QEvent.skipped req.requestNumber]) ∧
    ((¬ ∃ r ∈ rest, req.requestNumber < r.requestNumber) →
       (workerStep venv arrivals ⟨req :: rest, c⟩).2 = processRequest venv req) ∧
    (workerStep venv arrivals ⟨req :: rest, c⟩).1 = enqueueAll arrivals ⟨rest, c⟩ := by
  have hiff : shouldSkipRequest req rest = true ↔
      ∃ r ∈ rest, req.requestNumber < r.requestNumber := by
    rw [shouldSkipRequest, List.any_eq_true]
    simp only [decide_eq_true_eq]
  refine ⟨?_, ?_, ?_⟩
  · intro hex
    rw [workerStep_cons, if_pos (hiff.mpr hex)]
  · intro hnex
    have hsk : shouldSkipRequest req rest = false := by
      rcases hb : shouldSkipRequest req rest with _ | _
      · rfl
      · exact absurd (hiff.mp hb) hnex
    rw [workerStep_cons, hsk]
    simp
  · rw [workerStep_cons]
    by_cases hskip : shouldSkipRequest req rest
    · rw [if_pos hskip]
    · rw [if_neg hskip]

/-- Witness for `supersede_dequeue_only`: a queued older request is
dropped with only a skip event when a newer one sits behind it. -/
theorem supersede_dequeue_only_witness :
    (workerStep (fun _ => (true, none)) []
      ⟨[⟨1, "t1", [], 0, 1⟩, ⟨2, "t2", [], 0, 2⟩], 2⟩).2 =
      [QEvent.skipped 1] := by
  exact (supersede_dequeue_only (fun _ => (true, none)) [] ⟨1, "t1", [], 0, 1⟩
    [⟨2, "t2", [], 0, 2⟩] 2).1 ⟨⟨2, "t2", [], 0, 2⟩, List.mem_cons_self _ _, by decide⟩

/-- C1 counterexample: text T1 is enqueued and dequeued; while its
validation runs, text T2 arrives (both match the same trigger); the claim
says T1's action can then never fire, but the worker — having passed the
dequeue-time check before T2 arrived — executes T1's winner (request 1)
and subsequently T2's (request 2): both actions fire. -/
theorem supersede_counterexample :
    QEvent.executed "AssistantTrigger" 1 ∈
      (qrun ⟨[], 0⟩
        [QOp.enq "hey bot turn on" [⟨"AssistantTrigger", 95, true, ["hey bot"]⟩],
         QOp.work (fun _ => (true, some ⟨true, 1, ""⟩))
           [("hey bot turn off", [⟨"AssistantTrigger", 95, true, ["hey bot"]⟩])],
         QOp.work (fun _ => (true, some ⟨true, 1, ""⟩)) []]).2 ∧
    QEvent.executed "AssistantTrigger" 2 ∈
      (qrun ⟨[], 0⟩
        [QOp.enq "hey bot turn on" [⟨"AssistantTrigger", 95, true, ["hey bot"]⟩],
         QOp.work (fun _ => (true, some ⟨true, 1, ""⟩))
           [("hey bot turn off", [⟨"AssistantTrigger", 95, true, ["hey bot"]⟩])],
         QOp.work (fun _ => (true, some ⟨true, 1, ""⟩)) []]).2 ∧
    checkKeywords ⟨"AssistantTrigger", 95, true, ["hey bot"]⟩ "hey bot turn on" = true ∧
    checkKeywords ⟨"AssistantTrigger", 95, true, ["hey bot"]⟩ "hey bot turn off" = true := by
  refine ⟨?_, ?_, ?_, ?_⟩ <;> decide

/-- C8 counterexample: TriggerRequest carries no single-fire execution
flag — a duplicated invocation of the processing callback on the very same
admitted request executes its winning trigger twice.  Nothing in the
request's state prevents the second execution. -/
theorem single_fire_flag_counterexample :
    execCount
      (processRequest (fun _ => (true, some ⟨true, 1, ""⟩))
        ⟨1, "hey bot", [⟨"AssistantTrigger", 95, true, ["hey bot"]⟩], 0, 1⟩ ++
       processRequest (fun _ => (true, some ⟨true, 1, ""⟩))
        ⟨1, "hey bot", [⟨"AssistantTrigger", 95, true, ["hey bot"]⟩], 0, 1⟩) 1 = 2 := by
  rfl

/-!
Connection coordinator (src/core/connection_coordinator.py).  Collaborator
behaviour (which external calls raise or fail) is captured in a CoordEnv;
each transition method becomes a function from coordinator state to an
outcome: the returned boolean (or a propagated exception), the final
state, and the observable events.  The delayed reconnect thread spawned on
a failed start is folded into the call's outcome: `reconnectOk` tells
whether `transcriber.connect()` succeeds and the connected flag is seen
within the thread's 3 s wait, in which case it re-adds the transcriber
consumer.  `arrivals` are the chunks the audio bus delivers to the
buffering consumer while the transition is in flight (serialized before
the session-start step).
-/

inductive ConnMode where
  | transcription : ConnMode
  | assistant : ConnMode
  | transitioning : ConnMode
  | disconnected : ConnMode
deriving DecidableEq, Repr

structure CoordEnv where
  transcriberPresent : Bool
  sessionPresent : Bool
  cbPresent : Bool
  cbRaises : ConnMode → Bool
  pauseRaises : Bool
  resumeRaises : Bool
  contextRaises : Bool
  startSessionOk : Bool
  sessionActiveAtFlush : Bool
  sessionActiveAtEnd : Bool
  endSessionRaises : Bool
  sendOk : Nat → Bool
  reconnectOk : Bool
  arrivals : List Nat

structure CoordState where
  mode : ConnMode
  modeChanges : Nat
  buffering : Bool
  buffer : List Nat
  bufferOverflows : Nat
  bufConsumerStored : Bool
  bus : AudioState
deriving DecidableEq, Repr

inductive CallResult where
  | ok : Bool → CallResult
  | raised : CallResult
deriving DecidableEq, Repr

inductive CEvent where
  | notified : ConnMode → CEvent
  | flushedChunk : Nat → CEvent
  | discarded : List Nat → CEvent
  | reconnectScheduled : CEvent
deriving DecidableEq, Repr

/-- Outcome of a coordinator call. -/
structure COutcome where
  result : CallResult
  state : CoordState
  events : List CEvent
deriving DecidableEq, Repr

/-- `queue.Queue(maxsize=100)` capacity of the transition buffer. -/
def bufferCapacity : Nat := 100

/-- `max_chunks = 100` bound of the flush loop. -/
def maxFlushChunks : Nat := 100

/-- The `buffer_audio` closure created by _start_audio_buffering: while
buffering, append the chunk; on a full queue drop the oldest chunk, count
the overflow and keep the newest. -/
def bufferChunk (s : CoordState) (chunk : Nat) : CoordState :=
  if s.buffering then
    if s.buffer.length < bufferCapacity then
      { s with buffer := s.buffer ++ [chunk] }
    else
      { s with buffer := s.buffer.drop 1 ++ [chunk],
               bufferOverflows := s.bufferOverflows + 1 }
  else s

/-- ConnectionCoordinator._start_audio_buffering: fresh empty buffer,
buffering on, buffering consumer registered on the bus. -/
def startAudioBuffering (s : CoordState) : CoordState :=
  { s with buffering := true, buffer := [],
           bufConsumerStored := true,
           bus := addConsumer s.bus Consumer.bufferer }

/-- The flush loop of _stop_audio_buffering: send at most `fuel` chunks in
FIFO order, stopping early when the queue is empty or a send raises; the
chunk whose send raised was already taken off the queue by `get_nowait`
and is lost.  Returns the sent chunks and the chunks left in the buffer. -/
def flushChunks (sendOk : Nat → Bool) : List Nat → Nat → List Nat × List Nat
  | [], _ => ([], [])
  | l, 0 => ([], l)
  | chunk :: rest, fuel + 1 =>
      if sendOk chunk then
        (chunk :: (flushChunks sendOk rest fuel).1, (flushChunks sendOk rest fuel).2)
      else ([], rest)

/-- First half of _stop_audio_buffering: buffering off and the stored
buffering consumer removed from the bus. -/
def removeBufConsumer (s : CoordState) : CoordState :=
  { s with buffering := false,
           bus := if s.bufConsumerStored then removeConsumer s.bus Consumer.bufferer
                  else s.bus,
           bufConsumerStored := false }

/-- ConnectionCoordinator._stop_audio_buffering: stop buffering, remove
the buffering consumer, then either flush to the session (when requested,
a session exists and it is still active; a send error aborts the loop) or
drain and discard the buffered chunks. -/
def stopAudioBuffering (flush : Bool) (env : CoordEnv) (s : CoordState) :
    CoordState × List CEvent :=
  if flush && env.sessionPresent then
    if env.sessionActiveAtFlush then
      ({ removeBufConsumer s with
           buffer := (flushChunks env.sendOk s.buffer maxFlushChunks).2 },
       (flushChunks env.sendOk s.buffer maxFlushChunks).1.map CEvent.flushedChunk)
    else
      ({ removeBufConsumer s with buffer := [] }, [CEvent.discarded s.buffer])
  else
    ({ removeBufConsumer s with buffer := [] }, [CEvent.discarded s.buffer])

/-- A mode-change notification: the callback is invoked when present. -/
def notify (env : CoordEnv) (m : ConnMode) : List CEvent :=
  if env.cbPresent then [CEvent.notified m] else []

/-- The compare-and-swap opening start_assistant_mode: under the mode
lock, refuse unless the mode is Transcription, else move to
Transitioning. -/
def startCAS (s : CoordState) : Bool × CoordState :=
  if s.mode = ConnMode.transcription then
    (true, { s with mode := ConnMode.transitioning, modeChanges := s.modeChanges + 1 })
  else (false, s)

/-- Steps of start_assistant_mode preceding the session start: start
buffering, remove the transcriber's consumer (wrapped, state-total here),
pause the transcriber (wrapped: a raise is swallowed), buffer the chunks
arriving during the window. -/
def startPhase1 (env : CoordEnv) (s : CoordState) : CoordState :=
  env.arrivals.foldl bufferChunk
    (if env.transcriberPresent then
      { startAudioBuffering s with
          bus := removeConsumer (startAudioBuffering s).bus Consumer.transcriber }
    else startAudioBuffering s)

/-- The except-handler of start_assistant_mode: stop buffering and
discard (wrapped), spawn the delayed transcriber reconnect (which re-adds
the transcriber consumer when it succeeds), CAS back to Transcription and
notify (wrapped). -/
def startRollback (env : CoordEnv) (s : CoordState) (evs : List CEvent) : COutcome :=
  { result := CallResult.ok false,
    state :=
      { (stopAudioBuffering false env s).1 with
          mode := ConnMode.transcription,
          bus := if env.transcriberPresent && env.reconnectOk then
                   addConsumer (stopAudioBuffering false env s).1.bus Consumer.transcriber
                 else (stopAudioBuffering false env s).1.bus },
    events := evs ++ (stopAudioBuffering false env s).2 ++
      (if env.transcriberPresent then [CEvent.reconnectScheduled] else []) ++
      notify env ConnMode.transcription }

/-- Body of start_assistant_mode after the CAS (the big try/except): fetch
context and start the session — a context exception or a failed session
start raises into the rollback; on success stop buffering with a flush,
move to Assistant and notify (the notification sits inside the try, so a
raising callback also lands in the rollback). -/
def startBody (env : CoordEnv) (s : CoordState) : COutcome :=
  if env.contextRaises || (env.sessionPresent && !env.startSessionOk) then
    startRollback env (startPhase1 env s) []
  else
    if env.cbPresent && env.cbRaises ConnMode.assistant then
      startRollback env
        { (stopAudioBuffering true env (startPhase1 env s)).1 with
            mode := ConnMode.assistant }
        ((stopAudioBuffering true env (startPhase1 env s)).2 ++
          [CEvent.notified ConnMode.assistant])
    else
      { result := CallResult.ok true,
        state := { (stopAudioBuffering true env (startPhase1 env s)).1 with
                     mode := ConnMode.assistant },
        events := (stopAudioBuffering true env (startPhase1 env s)).2 ++
          notify env ConnMode.assistant }

/-- ConnectionCoordinator.start_assistant_mode. -/
def startAssistantMode (env : CoordEnv) (s : CoordState) : COutcome :=
  if s.mode = ConnMode.transcription then
    { startBody env (startCAS s).2 with
        events := notify env ConnMode.transitioning ++
          (startBody env (startCAS s).2).events }
  else { result := CallResult.ok false, state := s, events := [] }

/-- The except-handler of end_assistant_mode: set the mode back to
Assistant and notify — the notification is NOT wrapped, so a raising
callback propagates out of the call; the transition buffer is neither
flushed nor discarded here. -/
def endExcept (env : CoordEnv) (s : CoordState) (evs : List CEvent) : COutcome :=
  if env.cbPresent then
    { result := if env.cbRaises ConnMode.assistant then CallResult.raised
                else CallResult.ok false,
      state := { s with mode := ConnMode.assistant },
      events := evs ++ [CEvent.notified ConnMode.assistant] }
  else
    { result := CallResult.ok false,
      state := { s with mode := ConnMode.assistant },
      events := evs }

/-- Steps of end_assistant_mode inside the try, through re-adding the
transcriber consumer: start buffering, buffer the window's arrivals
(the session end and transcriber resume change no coordinator state when
they do not raise), re-add the transcriber's consumer. -/
def endPhase1 (env : CoordEnv) (s : CoordState) : CoordState :=
  if env.transcriberPresent then
    { env.arrivals.foldl bufferChunk
        (startAudioBuffering { s with mode := ConnMode.transitioning }) with
      bus := addConsumer
        (env.arrivals.foldl bufferChunk
          (startAudioBuffering { s with mode := ConnMode.transitioning })).bus
        Consumer.transcriber }
  else
    env.arrivals.foldl bufferChunk
      (startAudioBuffering { s with mode := ConnMode.transitioning })

/-- ConnectionCoordinator.end_assistant_mode: refuse unless in Assistant;
move to Transitioning and notify — this notification is NOT wrapped in a
try, so a raising callback leaves the mode as Transitioning; then (in the
try) buffer, end the session if present and active, resume the
transcriber, re-add its consumer, stop buffering discarding the buffer,
CAS to Transcription and notify. -/
def endAssistantMode (env : CoordEnv) (s : CoordState) : COutcome :=
  if s.mode = ConnMode.assistant then
    if env.cbPresent && env.cbRaises ConnMode.transitioning then
      { result := CallResult.raised,
        state := { s with mode := ConnMode.transitioning },
        events := [CEvent.notified ConnMode.transitioning] }
    else
      if env.sessionPresent && env.sessionActiveAtEnd && env.endSessionRaises then
        endExcept env
          (env.arrivals.foldl bufferChunk
            (startAudioBuffering { s with mode := ConnMode.transitioning }))
          (notify env ConnMode.transitioning)
      else
        if env.transcriberPresent && env.resumeRaises then
          endExcept env
            (env.arrivals.foldl bufferChunk
              (startAudioBuffering { s with mode := ConnMode.transitioning }))
            (notify env ConnMode.transitioning)
        else
          if env.cbPresent && env.cbRaises ConnMode.transcription then
            endExcept env
              { (stopAudioBuffering false env (endPhase1 env s)).1 with
                  mode := ConnMode.transcription }
              (notify env ConnMode.transitioning ++
                (stopAudioBuffering false env (endPhase1 env s)).2 ++
                [CEvent.notified ConnMode.transcription])
          else
            { result := CallResult.ok true,
              state := { (stopAudioBuffering false env (endPhase1 env s)).1 with
                           mode := ConnMode.transcription },
              events := notify env ConnMode.transitioning ++
                (stopAudioBuffering false env (endPhase1 env s)).2 ++
                notify env ConnMode.transcription }
  else { result := CallResult.ok false, state := s, events := [] }

/-- A benign collaborator environment: all collaborators present, nothing
raises, the session starts and stays active, sends succeed, reconnects
succeed, no chunks arrive during the window. -/
def benignEnv : CoordEnv :=
  { transcriberPresent := true, sessionPresent := true, cbPresent := true,
    cbRaises := fun _ => false, pauseRaises := false, resumeRaises := false,
    contextRaises := false, startSessionOk := true, sessionActiveAtFlush := true,
    sessionActiveAtEnd := true, endSessionRaises := false, sendOk := fun _ => true,
    reconnectOk := true, arrivals := [] }

/-- Coordinator state in transcription mode with the transcriber's
consumer registered once on the bus. -/
def initCoord : CoordState :=
  ⟨ConnMode.transcription, 0, false, [], 0, false,
   ⟨[Consumer.transcriber], [], [], false⟩⟩

/-- Coordinator state in assistant mode (transcriber consumer detached). -/
def assistCoord : CoordState :=
  ⟨ConnMode.assistant, 1, false, [], 0, false, ⟨[], [], [], false⟩⟩

theorem endExcept_no_raise (env : CoordEnv) (s : CoordState) (evs : List CEvent)
    (h : env.cbRaises ConnMode.assistant = false) :
    (endExcept env s evs).result = CallResult.ok false ∧
    (endExcept env s evs).state.mode = ConnMode.assistant := by
  rw [endExcept]
  by_cases hp : env.cbPresent = true
  · rw [if_pos hp]
    refine ⟨?_, rfl⟩
    show (if env.cbRaises ConnMode.assistant = true then CallResult.raised
          else CallResult.ok false) = CallResult.ok false
    rw [h]
    simp
  · rw [if_neg hp]
    exact ⟨rfl, rfl⟩

/-- C2 (amended): start_assistant_mode never returns with the mode left as
Transitioning: from Transcription it either returns true in Assistant or
false rolled back to Transcription, whatever the collaborators do.  For
end_assistant_mode the same holds PROVIDED the mode-change callback does
not raise — the Transitioning notification in end_assistant_mode is not
wrapped in a try, so a raising callback propagates and leaves the mode as
Transitioning (see the counterexample). -/
theorem transition_completes_or_rolls_back (env : CoordEnv) (s : CoordState) :
    (s.mode = ConnMode.transcription →
      ((startAssistantMode env s).result = CallResult.ok true ∧
        (startAssistantMode env s).state.mode = ConnMode.assistant) ∨
      ((startAssistantMode env s).result = CallResult.ok false ∧
        (startAssistantMode env s).state.mode = ConnMode.transcription)) ∧
    ((∀ m, env.cbRaises m = false) → s.mode = ConnMode.assistant →
      ((endAssistantMode env s).result = CallResult.ok true ∧
        (endAssistantMode env s).state.mode = ConnMode.transcription) ∨
      ((endAssistantMode env s).result = CallResult.ok false ∧
        (endAssistantMode env s).state.mode = ConnMode.assistant)) := by
  constructor
  · intro hmode
    rw [startAssistantMode, if_pos hmode]
    show ((startBody env (startCAS s).2).result = CallResult.ok true ∧
          (startBody env (startCAS s).2).state.mode = ConnMode.assistant) ∨
         ((startBody env (startCAS s).2).result = CallResult.ok false ∧
          (startBody env (startCAS s).2).state.mode = ConnMode.transcription)
    by_cases h1 : (env.contextRaises || (env.sessionPresent && !env.startSessionOk)) = true
    · right
      rw [startBody, if_pos h1]
      exact ⟨rfl, rfl⟩
    · by_cases h2 : (env.cbPresent && env.cbRaises ConnMode.assistant) = true
      · right
        rw [startBody, if_neg h1, if_pos h2]
        exact ⟨rfl, rfl⟩
      · left
        rw [startBody, if_neg h1, if_neg h2]
        exact ⟨rfl, rfl⟩
  · intro hcb hmode
    rw [endAssistantMode, if_pos hmode]
    have hnt : ¬((env.cbPresent && env.cbRaises ConnMode.transitioning) = true) := by
      rw [hcb]
      simp
    rw [if_neg hnt]
    by_cases h1 : (env.sessionPresent && env.sessionActiveAtEnd && env.endSessionRaises) = true
    · right
      rw [if_pos h1]
      exact endExcept_no_raise env _ _ (hcb _)
    · rw [if_neg h1]
      by_cases h2 : (env.transcriberPresent && env.resumeRaises) = true
      · right
        rw [if_pos h2]
        exact endExcept_no_raise env _ _ (hcb _)
      · rw [if_neg h2]
        have hnc : ¬((env.cbPresent && env.cbRaises ConnMode.transcription) = true) := by
          rw [hcb]
          simp
        rw [if_neg hnc]
        left
        exact ⟨rfl, rfl⟩

/-- Witness for `transition_completes_or_rolls_back` at the benign
environment from assistant mode. -/
theorem transition_completes_or_rolls_back_witness :
    ((endAssistantMode benignEnv assistCoord).result = CallResult.ok true ∧
      (endAssistantMode benignEnv assistCoord).state.mode = ConnMode.transcription) ∨
    ((endAssistantMode benignEnv assistCoord).result = CallResult.ok false ∧
      (endAssistantMode benignEnv assistCoord).state.mode = ConnMode.assistant) :=
  (transition_completes_or_rolls_back benignEnv assistCoord).2 (fun _ => rfl) rfl

/-- C2 counterexample: when the mode-change callback raises on the
Transitioning notification, end_assistant_mode propagates the exception
— it does not return false — and the coordinator is left parked in
Transitioning. -/
theorem transition_left_transitioning_counterexample :
    (endAssistantMode { benignEnv with cbRaises := fun _ => true } assistCoord).result =
      CallResult.raised ∧
    (endAssistantMode { benignEnv with cbRaises := fun _ => true } assistCoord).state.mode =
      ConnMode.transitioning := by
  exact ⟨rfl, rfl⟩

/-- C5 (amended): a start_assistant_mode call finding the mode not equal
to Transcription returns false immediately with no side effects (state
and event trace unchanged); hence of two calls racing on the mode lock
the loser observes Transitioning and returns false untouched, while the
winner returns true exactly when its transition succeeds — so when the
winning transition fails (e.g. the session does not start), BOTH calls
return false, not exactly one true. -/
theorem start_guard_no_side_effects (env : CoordEnv) (s : CoordState) :
    (s.mode ≠ ConnMode.transcription →
       startAssistantMode env s = ⟨CallResult.ok false, s, []⟩) ∧
    (s.mode = ConnMode.transcription →
       startAssistantMode env (startCAS s).2 = ⟨CallResult.ok false, (startCAS s).2, []⟩ ∧
       ((startAssistantMode env s).result = CallResult.ok true ∨
        (startAssistantMode env s).result = CallResult.ok false)) := by
  constructor
  · intro h
    rw [startAssistantMode, if_neg h]
  · intro h
    constructor
    · rw [startCAS, if_pos h]
      rw [startAssistantMode]
      rw [if_neg (by simp)]
    · rw [startAssistantMode, if_pos h]
      show (startBody env (startCAS s).2).result = CallResult.ok true ∨
           (startBody env (startCAS s).2).result = CallResult.ok false
      by_cases h1 : (env.contextRaises || (env.sessionPresent && !env.startSessionOk)) = true
      · right
        rw [startBody, if_pos h1]
        rfl
      · by_cases h2 : (env.cbPresent && env.cbRaises ConnMode.assistant) = true
        · right
          rw [startBody, if_neg h1, if_pos h2]
          rfl
        · left
          rw [startBody, if_neg h1, if_neg h2]

/-- Witness for `start_guard_no_side_effects`: a call from assistant mode
is refused without side effects. -/
theorem start_guard_no_side_effects_witness :
    startAssistantMode benignEnv assistCoord =
      ⟨CallResult.ok false, assistCoord, []⟩ :=
  (start_guard_no_side_effects benignEnv assistCoord).1 (by simp [assistCoord])

/-- C5 counterexample: two racing start_assistant_mode calls where the
CAS winner's session start fails — the loser returns false immediately
(no side effects) and the winner also returns false after rolling back,
so it is not the case that exactly one of the two calls returns true. -/
theorem concurrent_start_counterexample :
    (startAssistantMode { benignEnv with startSessionOk := false }
        (startCAS initCoord).2).result = CallResult.ok false ∧
    (startAssistantMode { benignEnv with startSessionOk := false }
        (startCAS initCoord).2).state = (startCAS initCoord).2 ∧
    (startAssistantMode { benignEnv with startSessionOk := false }
        initCoord).result = CallResult.ok false := by
  exact ⟨rfl, rfl, rfl⟩

/-! Helper lemmas about the transition buffer and the bus bookkeeping of
the coordinator. -/

theorem bufferChunk_preserves (s : CoordState) (ch : Nat) :
    (bufferChunk s ch).bus = s.bus ∧
    (bufferChunk s ch).bufConsumerStored = s.bufConsumerStored ∧
    (bufferChunk s ch).buffering = s.buffering ∧
    (bufferChunk s ch).mode = s.mode := by
  rw [bufferChunk]
  split
  · split <;> exact ⟨rfl, rfl, rfl, rfl⟩
  · exact ⟨rfl, rfl, rfl, rfl⟩

theorem foldl_bufferChunk_preserves (l : List Nat) (s : CoordState) :
    (l.foldl bufferChunk s).bus = s.bus ∧
    (l.foldl bufferChunk s).bufConsumerStored = s.bufConsumerStored ∧
    (l.foldl bufferChunk s).buffering = s.buffering ∧
    (l.foldl bufferChunk s).mode = s.mode := by
  induction l generalizing s with
  | nil => exact ⟨rfl, rfl, rfl, rfl⟩
  | cons a t ih =>
      have h := bufferChunk_preserves s a
      have h2 := ih (bufferChunk s a)
      exact ⟨h2.1.trans h.1, h2.2.1.trans h.2.1,
             h2.2.2.1.trans h.2.2.1, h2.2.2.2.trans h.2.2.2⟩

theorem bufferChunk_length_le (s : CoordState) (ch : Nat)
    (h : s.buffer.length ≤ bufferCapacity) :
    (bufferChunk s ch).buffer.length ≤ bufferCapacity := by
  rw [bufferChunk]
  by_cases hb : s.buffering = true
  · rw [if_pos hb]
    by_cases hlt : s.buffer.length < bufferCapacity
    · rw [if_pos hlt]
      show (s.buffer ++ [ch]).length ≤ bufferCapacity
      rw [List.length_append, List.length_singleton]
      exact hlt
    · rw [if_neg hlt]
      show (s.buffer.drop 1 ++ [ch]).length ≤ bufferCapacity
      rw [List.length_append, List.length_singleton, List.length_drop]
      simp only [bufferCapacity] at hlt h ⊢
      omega
  · rw [if_neg hb]
    exact h

theorem foldl_bufferChunk_length_le (l : List Nat) (s : CoordState)
    (h : s.buffer.length ≤ bufferCapacity) :
    (l.foldl bufferChunk s).buffer.length ≤ bufferCapacity := by
  induction l generalizing s with
  | nil => exact h
  | cons a t ih => exact ih _ (bufferChunk_length_le s a h)

/-- Without overflow the buffered chunks are exactly the arrivals in
arrival order, appended to what was already buffered. -/
theorem foldl_bufferChunk_append (l : List Nat) (s : CoordState)
    (hb : s.buffering = true) (h : s.buffer.length + l.length ≤ bufferCapacity) :
    (l.foldl bufferChunk s).buffer = s.buffer ++ l := by
  induction l generalizing s with
  | nil => simp
  | cons a t ih =>
      have hlt : s.buffer.length < bufferCapacity := by
        simp only [List.length_cons] at h
        omega
      have hstep : bufferChunk s a = { s with buffer := s.buffer ++ [a] } := by
        rw [bufferChunk, if_pos hb, if_pos hlt]
      rw [List.foldl_cons, hstep]
      rw [ih { s with buffer := s.buffer ++ [a] } hb
        (by
          show (s.buffer ++ [a]).length + t.length ≤ bufferCapacity
          rw [List.length_append, List.length_singleton]
          simp only [List.length_cons] at h
          omega)]
      simp

/-- A full buffer evicts its oldest chunk and keeps the newest. -/
theorem bufferChunk_overflow (s : CoordState) (ch : Nat)
    (hb : s.buffering = true) (h : ¬ s.buffer.length < bufferCapacity) :
    (bufferChunk s ch).buffer = s.buffer.drop 1 ++ [ch] := by
  rw [bufferChunk, if_pos hb, if_neg h]

/-- A flush whose sends all succeed and whose buffer fits in the fuel
sends everything in order and leaves nothing behind. -/
theorem flushChunks_all (sendOk : Nat → Bool) (l : List Nat) (fuel : Nat)
    (hok : ∀ c ∈ l, sendOk c = true) (hlen : l.length ≤ fuel) :
    flushChunks sendOk l fuel = (l, []) := by
  induction l generalizing fuel with
  | nil => cases fuel <;> rfl
  | cons a t ih =>
      cases fuel with
      | zero => simp at hlen
      | succ f =>
          rw [flushChunks, if_pos (hok a (List.mem_cons_self _ _))]
          rw [ih f (fun c hc => hok c (List.mem_cons_of_mem _ hc))
            (by simpa using hlen)]

theorem stopAudioBuffering_discard (env : CoordEnv) (s : CoordState) :
    stopAudioBuffering false env s =
      ({ removeBufConsumer s with buffer := [] }, [CEvent.discarded s.buffer]) := by
  rw [stopAudioBuffering]
  simp

theorem stopAudioBuffering_flush (env : CoordEnv) (s : CoordState)
    (hsp : env.sessionPresent = true) (hact : env.sessionActiveAtFlush = true) :
    stopAudioBuffering true env s =
      ({ removeBufConsumer s with
           buffer := (flushChunks env.sendOk s.buffer maxFlushChunks).2 },
       (flushChunks env.sendOk s.buffer maxFlushChunks).1.map CEvent.flushedChunk) := by
  rw [stopAudioBuffering, hsp, hact]
  simp

theorem flushed_notMem_notify (env : CoordEnv) (m : ConnMode) (n : Nat) :
    CEvent.flushedChunk n ∉ notify env m := by
  rw [notify]
  split <;> simp

theorem discarded_notMem_notify (env : CoordEnv) (m : ConnMode) (l : List Nat) :
    CEvent.discarded l ∉ notify env m := by
  rw [notify]
  split <;> simp

/-- C9 (amended): when the session fails to start during
start_assistant_mode, the call returns false with the mode rolled back to
Transcription, the transition buffer is discarded and never flushed, and
— PROVIDED the delayed background reconnect succeeds — the transcriber
consumer ends registered on the bus exactly once, with the buffering
consumer fully removed.  (If the reconnect fails, the consumer is missing:
see the counterexample.) -/
theorem session_start_failure_recovery (env : CoordEnv) (s : CoordState)
    (hmode : s.mode = ConnMode.transcription)
    (hcnt : List.count Consumer.transcriber s.bus.consumers = 1)
    (hbuf : Consumer.bufferer ∉ s.bus.consumers)
    (htp : env.transcriberPresent = true) (hsp : env.sessionPresent = true)
    (hss : env.startSessionOk = false) (hcr : env.contextRaises = false)
    (hrc : env.reconnectOk = true) :
    (startAssistantMode env s).result = CallResult.ok false ∧
    (startAssistantMode env s).state.mode = ConnMode.transcription ∧
    List.count Consumer.transcriber (startAssistantMode env s).state.bus.consumers = 1 ∧
    Consumer.bufferer ∉ (startAssistantMode env s).state.bus.consumers ∧
    (∀ n, CEvent.flushedChunk n ∉ (startAssistantMode env s).events) ∧
    CEvent.discarded (startPhase1 env (startCAS s).2).buffer ∈
      (startAssistantMode env s).events ∧
    (startAssistantMode env s).state.buffer = [] ∧
    (startAssistantMode env s).state.buffering = false := by
  have hc1 : (env.contextRaises || (env.sessionPresent && !env.startSessionOk)) = true := by
    rw [hcr, hsp, hss]
    rfl
  have hc2 : (env.transcriberPresent && env.reconnectOk) = true := by
    rw [htp, hrc]
    rfl
  -- the bus reached by startPhase1
  have hsbus : (startCAS s).2.bus = s.bus := by
    rw [startCAS, if_pos hmode]
  have hSPbus : (startPhase1 env (startCAS s).2).bus =
      removeConsumer (addConsumer s.bus Consumer.bufferer) Consumer.transcriber := by
    rw [startPhase1, if_pos htp]
    refine (foldl_bufferChunk_preserves _ _).1.trans ?_
    show removeConsumer (addConsumer (startCAS s).2.bus Consumer.bufferer)
        Consumer.transcriber = _
    rw [hsbus]
  have hSPstored : (startPhase1 env (startCAS s).2).bufConsumerStored = true := by
    rw [startPhase1, if_pos htp]
    exact (foldl_bufferChunk_preserves _ _).2.1
  -- counts along the way
  have hmemT : Consumer.transcriber ∈ (addConsumer s.bus Consumer.bufferer).consumers := by
    refine List.count_pos_iff.mp ?_
    show 0 < List.count Consumer.transcriber (s.bus.consumers ++ [Consumer.bufferer])
    rw [List.count_append, hcnt]
    omega
  have hl2 : (removeConsumer (addConsumer s.bus Consumer.bufferer)
      Consumer.transcriber).consumers =
      (s.bus.consumers ++ [Consumer.bufferer]).erase Consumer.transcriber := by
    show (if Consumer.transcriber ∈ (addConsumer s.bus Consumer.bufferer).consumers
          then (addConsumer s.bus Consumer.bufferer).consumers.erase Consumer.transcriber
          else (addConsumer s.bus Consumer.bufferer).consumers) = _
    rw [if_pos hmemT]
    rfl
  have hcntT2 : List.count Consumer.transcriber
      ((s.bus.consumers ++ [Consumer.bufferer]).erase Consumer.transcriber) = 0 := by
    rw [List.count_erase_self, List.count_append, hcnt]
    simp
  have hcntB2 : List.count Consumer.bufferer
      ((s.bus.consumers ++ [Consumer.bufferer]).erase Consumer.transcriber) = 1 := by
    rw [List.count_erase_of_ne (by simp), List.count_append,
        List.count_eq_zero.mpr hbuf]
    simp
  have hmemB : Consumer.bufferer ∈
      ((s.bus.consumers ++ [Consumer.bufferer]).erase Consumer.transcriber) := by
    refine List.count_pos_iff.mp ?_
    rw [hcntB2]
    omega
  -- the bus after removeBufConsumer (inside the rollback's stop)
  have hl3 : (removeBufConsumer (startPhase1 env (startCAS s).2)).bus.consumers =
      (((s.bus.consumers ++ [Consumer.bufferer]).erase Consumer.transcriber).erase
        Consumer.bufferer) := by
    show (if (startPhase1 env (startCAS s).2).bufConsumerStored then
            removeConsumer (startPhase1 env (startCAS s).2).bus Consumer.bufferer
          else (startPhase1 env (startCAS s).2).bus).consumers = _
    rw [hSPstored, if_pos rfl, hSPbus]
    show (if Consumer.bufferer ∈
            (removeConsumer (addConsumer s.bus Consumer.bufferer)
              Consumer.transcriber).consumers
          then (removeConsumer (addConsumer s.bus Consumer.bufferer)
              Consumer.transcriber).consumers.erase Consumer.bufferer
          else (removeConsumer (addConsumer s.bus Consumer.bufferer)
              Consumer.transcriber).consumers) = _
    rw [hl2, if_pos hmemB]
  have hcntT3 : List.count Consumer.transcriber
      (removeBufConsumer (startPhase1 env (startCAS s).2)).bus.consumers = 0 := by
    rw [hl3, List.count_erase_of_ne (by simp), hcntT2]
  have hcntB3 : List.count Consumer.bufferer
      (removeBufConsumer (startPhase1 env (startCAS s).2)).bus.consumers = 0 := by
    rw [hl3, List.count_erase_self, hcntB2]
  -- unfold the whole call
  rw [startAssistantMode, if_pos hmode]
  show (startBody env (startCAS s).2).result = CallResult.ok false ∧
    (startBody env (startCAS s).2).state.mode = ConnMode.transcription ∧
    List.count Consumer.transcriber
      (startBody env (startCAS s).2).state.bus.consumers = 1 ∧
    Consumer.bufferer ∉ (startBody env (startCAS s).2).state.bus.consumers ∧
    (∀ n, CEvent.flushedChunk n ∉
      notify env ConnMode.transitioning ++ (startBody env (startCAS s).2).events) ∧
    CEvent.discarded (startPhase1 env (startCAS s).2).buffer ∈
      notify env ConnMode.transitioning ++ (startBody env (startCAS s).2).events ∧
    (startBody env (startCAS s).2).state.buffer = [] ∧
    (startBody env (startCAS s).2).state.buffering = false
  rw [startBody, if_pos hc1, startRollback,
      stopAudioBuffering_discard env (startPhase1 env (startCAS s).2)]
  refine ⟨rfl, rfl, ?_, ?_, ?_, ?_, rfl, rfl⟩
  · show List.count Consumer.transcriber
      (if env.transcriberPresent && env.reconnectOk then
        addConsumer ({ removeBufConsumer (startPhase1 env (startCAS s).2) with
          buffer := [] } : CoordState).bus Consumer.transcriber
       else ({ removeBufConsumer (startPhase1 env (startCAS s).2) with
          buffer := [] } : CoordState).bus).consumers = 1
    rw [if_pos hc2]
    show List.count Consumer.transcriber
      ((removeBufConsumer (startPhase1 env (startCAS s).2)).bus.consumers ++
        [Consumer.transcriber]) = 1
    rw [List.count_append, hcntT3]
    simp
  · show Consumer.bufferer ∉
      (if env.transcriberPresent && env.reconnectOk then
        addConsumer ({ removeBufConsumer (startPhase1 env (startCAS s).2) with
          buffer := [] } : CoordState).bus Consumer.transcriber
       else ({ removeBufConsumer (startPhase1 env (startCAS s).2) with
          buffer := [] } : CoordState).bus).consumers
    rw [if_pos hc2]
    refine fun hmem => ?_
    have : 0 < List.count Consumer.bufferer
        ((removeBufConsumer (startPhase1 env (startCAS s).2)).bus.consumers ++
          [Consumer.transcriber]) := by
      exact List.count_pos_iff.mpr hmem
    rw [List.count_append, hcntB3] at this
    simp at this
  · intro n hmem
    rcases List.mem_append.mp hmem with h | h
    · exact flushed_notMem_notify env _ n h
    · rcases List.mem_append.mp h with h2 | h2
      · rcases List.mem_append.mp h2 with h3 | h3
        · rcases List.mem_append.mp h3 with h4 | h4
          · simp at h4
          · simp at h4
        · revert h3
          split <;> simp
      · exact flushed_notMem_notify env _ n h2
  · refine List.mem_append.mpr (Or.inr ?_)
    refine List.mem_append.mpr (Or.inl ?_)
    refine List.mem_append.mpr (Or.inl ?_)
    refine List.mem_append.mpr (Or.inr ?_)
    exact List.mem_singleton.mpr rfl

/-- Witness for `session_start_failure_recovery`: with the session start
failing and everything else benign, the call returns false and the
transcriber consumer sits on the bus exactly once. -/
theorem session_start_failure_recovery_witness :
    (startAssistantMode { benignEnv with startSessionOk := false } initCoord).result =
      CallResult.ok false ∧
    List.count Consumer.transcriber
      (startAssistantMode { benignEnv with startSessionOk := false }
        initCoord).state.bus.consumers = 1 := by
  have h := session_start_failure_recovery { benignEnv with startSessionOk := false }
    initCoord rfl (by decide) (by decide) rfl rfl rfl rfl rfl
  exact ⟨h.1, h.2.2.1⟩

/-- C9 counterexample: the claim promises no missing registration, but the
re-attachment happens on a background thread that only re-adds the
consumer after `transcriber.connect()` succeeds and the connected flag is
seen within its wait; when that reconnect fails, the transcription
consumer is attached to the bus zero times after the rolled-back call. -/
theorem session_start_failure_missing_consumer_counterexample :
    (startAssistantMode
      { benignEnv with startSessionOk := false, reconnectOk := false }
      initCoord).result = CallResult.ok false ∧
    (startAssistantMode
      { benignEnv with startSessionOk := false, reconnectOk := false }
      initCoord).state.mode = ConnMode.transcription ∧
    List.count Consumer.transcriber
      (startAssistantMode
        { benignEnv with startSessionOk := false, reconnectOk := false }
        initCoord).state.bus.consumers = 0 := by
  decide

/-- C6 (amended): the transition buffer is a bounded FIFO of capacity 100:
a chunk arriving at a full buffer evicts the oldest and keeps the newest,
otherwise it is appended.  A successful start transition flushes the
buffered chunks to the session in original arrival order (all of them —
the capacity never exceeds the flush bound), ends with an empty buffer and
discards nothing; without overflow the flushed chunks are exactly the
arrivals.  A start transition that fails BEFORE the flush (context fetch
raises or the session fails to start) discards without flushing and ends
with an empty inactive buffer; a start transition that fails only at the
final assistant-mode notification — which sits after the flush inside the
try — has already flushed every buffered chunk to the session before
rolling back, and its rollback discard is of the then-empty buffer.  A
successful reverse (end) transition discards without flushing.  A reverse
transition that fails BEFORE the buffer is stopped (the session's end or
the transcriber's resume raising) neither flushes nor discards: buffering
is left active with the consumer attached (see the counterexample); one
that fails only at the final transcription notification has already
discarded.  So flush-or-discard-exactly-once per transition does not hold
in general: it holds for start transitions failing before the flush and
for successful end transitions, while a late-notification start failure
flushes on a failed transition and a pre-stop end failure does neither. -/
theorem transition_buffer_bounded_fifo (env : CoordEnv) (s : CoordState) :
    (∀ st : CoordState, ∀ ch, st.buffering = true →
       ¬ st.buffer.length < bufferCapacity →
       (bufferChunk st ch).buffer = st.buffer.drop 1 ++ [ch]) ∧
    (∀ st : CoordState, ∀ ch, st.buffering = true →
       st.buffer.length < bufferCapacity →
       (bufferChunk st ch).buffer = st.buffer ++ [ch]) ∧
    (s.mode = ConnMode.transcription →
     env.contextRaises = false → env.sessionPresent = true →
     env.startSessionOk = true → env.sessionActiveAtFlush = true →
     (∀ n, env.sendOk n = true) →
     (env.cbPresent && env.cbRaises ConnMode.assistant) = false →
       (startAssistantMode env s).result = CallResult.ok true ∧
       (startAssistantMode env s).state.buffer = [] ∧
       (startAssistantMode env s).state.buffering = false ∧
       (startAssistantMode env s).events =
         notify env ConnMode.transitioning ++
         ((startPhase1 env (startCAS s).2).buffer.map CEvent.flushedChunk ++
          notify env ConnMode.assistant) ∧
       (∀ l, CEvent.discarded l ∉ (startAssistantMode env s).events) ∧
       (env.arrivals.length ≤ bufferCapacity →
          (startPhase1 env (startCAS s).2).buffer = env.arrivals)) ∧
    (s.mode = ConnMode.transcription →
     (env.contextRaises || (env.sessionPresent && !env.startSessionOk)) = true →
       CEvent.discarded (startPhase1 env (startCAS s).2).buffer ∈
         (startAssistantMode env s).events ∧
       (∀ n, CEvent.flushedChunk n ∉ (startAssistantMode env s).events) ∧
       (startAssistantMode env s).state.buffer = [] ∧
       (startAssistantMode env s).state.buffering = false) ∧
    ((∀ m, env.cbRaises m = false) → s.mode = ConnMode.assistant →
     (env.sessionPresent && env.sessionActiveAtEnd && env.endSessionRaises) = false →
     (env.transcriberPresent && env.resumeRaises) = false →
       (endAssistantMode env s).result = CallResult.ok true ∧
       (endAssistantMode env s).state.buffer = [] ∧
       (endAssistantMode env s).state.buffering = false ∧
       CEvent.discarded (endPhase1 env s).buffer ∈ (endAssistantMode env s).events ∧
       (∀ n, CEvent.flushedChunk n ∉ (endAssistantMode env s).events)) ∧
    (s.mode = ConnMode.transcription →
     env.contextRaises = false → env.sessionPresent = true →
     env.startSessionOk = true → env.sessionActiveAtFlush = true →
     (∀ n, env.sendOk n = true) →
     (env.cbPresent && env.cbRaises ConnMode.assistant) = true →
       (startAssistantMode env s).result = CallResult.ok false ∧
       (∀ n ∈ (startPhase1 env (startCAS s).2).buffer,
          CEvent.flushedChunk n ∈ (startAssistantMode env s).events) ∧
       (∀ l, CEvent.discarded l ∈ (startAssistantMode env s).events → l = []) ∧
       (startAssistantMode env s).state.buffer = [] ∧
       (startAssistantMode env s).state.buffering = false ∧
       (startAssistantMode env s).state.mode = ConnMode.transcription) ∧
    (s.mode = ConnMode.assistant →
     (env.cbPresent && env.cbRaises ConnMode.transitioning) = false →
     (env.sessionPresent && env.sessionActiveAtEnd && env.endSessionRaises) = false →
     (env.transcriberPresent && env.resumeRaises) = false →
     (env.cbPresent && env.cbRaises ConnMode.transcription) = true →
       ((endAssistantMode env s).result = CallResult.ok false ∨
        (endAssistantMode env s).result = CallResult.raised) ∧
       CEvent.discarded (endPhase1 env s).buffer ∈ (endAssistantMode env s).events ∧
       (∀ n, CEvent.flushedChunk n ∉ (endAssistantMode env s).events) ∧
       (endAssistantMode env s).state.mode = ConnMode.assistant) := by
  refine ⟨fun st ch hb hf => bufferChunk_overflow st ch hb hf,
          fun st ch hb hlt => by rw [bufferChunk, if_pos hb, if_pos hlt],
          ?_, ?_, ?_, ?_, ?_⟩
  · -- successful start
    intro hm hcr hsp hss hact hsend hcb
    have hc1 : (env.contextRaises || (env.sessionPresent && !env.startSessionOk)) = false := by
      rw [hcr, hsp, hss]
      rfl
    have hSPlen : (startPhase1 env (startCAS s).2).buffer.length ≤ bufferCapacity := by
      rw [startPhase1]
      refine foldl_bufferChunk_length_le _ _ ?_
      split
      · exact Nat.zero_le _
      · exact Nat.zero_le _
    have hfl := flushChunks_all env.sendOk (startPhase1 env (startCAS s).2).buffer
      maxFlushChunks (fun c _ => hsend c) hSPlen
    rw [startAssistantMode, if_pos hm]
    show (startBody env (startCAS s).2).result = CallResult.ok true ∧
      (startBody env (startCAS s).2).state.buffer = [] ∧
      (startBody env (startCAS s).2).state.buffering = false ∧
      notify env ConnMode.transitioning ++ (startBody env (startCAS s).2).events =
        notify env ConnMode.transitioning ++
        ((startPhase1 env (startCAS s).2).buffer.map CEvent.flushedChunk ++
         notify env ConnMode.assistant) ∧
      (∀ l, CEvent.discarded l ∉
        notify env ConnMode.transitioning ++ (startBody env (startCAS s).2).events) ∧
      (env.arrivals.length ≤ bufferCapacity →
        (startPhase1 env (startCAS s).2).buffer = env.arrivals)
    rw [startBody, if_neg (by rw [hc1]; exact Bool.false_ne_true),
        if_neg (by rw [hcb]; exact Bool.false_ne_true),
        stopAudioBuffering_flush env _ hsp hact, hfl]
    refine ⟨rfl, rfl, rfl, rfl, ?_, ?_⟩
    · intro l hmem
      rcases List.mem_append.mp hmem with h | h
      · exact discarded_notMem_notify env _ l h
      · rcases List.mem_append.mp h with h2 | h2
        · simp at h2
        · exact discarded_notMem_notify env _ l h2
    · intro harr
      rw [startPhase1]
      have hres := foldl_bufferChunk_append env.arrivals
        (if env.transcriberPresent then
          { startAudioBuffering (startCAS s).2 with
              bus := removeConsumer (startAudioBuffering (startCAS s).2).bus
                Consumer.transcriber }
        else startAudioBuffering (startCAS s).2)
        (by split <;> rfl)
        (by
          have hz : (if env.transcriberPresent then
              { startAudioBuffering (startCAS s).2 with
                  bus := removeConsumer (startAudioBuffering (startCAS s).2).bus
                    Consumer.transcriber }
            else startAudioBuffering (startCAS s).2).buffer = [] := by
            split <;> rfl
          rw [hz]
          simpa using harr)
      rw [hres]
      have hz : (if env.transcriberPresent then
          { startAudioBuffering (startCAS s).2 with
              bus := removeConsumer (startAudioBuffering (startCAS s).2).bus
                Consumer.transcriber }
        else startAudioBuffering (startCAS s).2).buffer = [] := by
        split <;> rfl
      rw [hz]
      rfl
  · -- failed start: discard, never flush
    intro hm hc1
    rw [startAssistantMode, if_pos hm]
    show CEvent.discarded (startPhase1 env (startCAS s).2).buffer ∈
        notify env ConnMode.transitioning ++ (startBody env (startCAS s).2).events ∧
      (∀ n, CEvent.flushedChunk n ∉
        notify env ConnMode.transitioning ++ (startBody env (startCAS s).2).events) ∧
      (startBody env (startCAS s).2).state.buffer = [] ∧
      (startBody env (startCAS s).2).state.buffering = false
    rw [startBody, if_pos hc1, startRollback,
        stopAudioBuffering_discard env (startPhase1 env (startCAS s).2)]
    refine ⟨?_, ?_, rfl, rfl⟩
    · refine List.mem_append.mpr (Or.inr ?_)
      refine List.mem_append.mpr (Or.inl ?_)
      refine List.mem_append.mpr (Or.inl ?_)
      refine List.mem_append.mpr (Or.inr ?_)
      exact List.mem_singleton.mpr rfl
    · intro n hmem
      rcases List.mem_append.mp hmem with h | h
      · exact flushed_notMem_notify env _ n h
      · rcases List.mem_append.mp h with h2 | h2
        · rcases List.mem_append.mp h2 with h3 | h3
          · rcases List.mem_append.mp h3 with h4 | h4
            · simp at h4
            · simp at h4
          · revert h3
            split <;> simp
        · exact flushed_notMem_notify env _ n h2
  · -- successful end: discard, never flush
    intro hcb hm h1 h2
    rw [endAssistantMode, if_pos hm,
        if_neg (show ¬(env.cbPresent && env.cbRaises ConnMode.transitioning) = true by
          rw [hcb]
          simp),
        if_neg (by rw [h1]; exact Bool.false_ne_true),
        if_neg (by rw [h2]; exact Bool.false_ne_true),
        if_neg (show ¬(env.cbPresent && env.cbRaises ConnMode.transcription) = true by
          rw [hcb]
          simp),
        stopAudioBuffering_discard env (endPhase1 env s)]
    refine ⟨rfl, rfl, rfl, ?_, ?_⟩
    · refine List.mem_append.mpr (Or.inl ?_)
      refine List.mem_append.mpr (Or.inr ?_)
      exact List.mem_singleton.mpr rfl
    · intro n hmem
      rcases List.mem_append.mp hmem with h | h
      · rcases List.mem_append.mp h with h2 | h2
        · exact flushed_notMem_notify env _ n h2
        · simp at h2
      · exact flushed_notMem_notify env _ n h
  · -- start failing only at the assistant-mode notification: already flushed
    intro hm hcr hsp hss hact hsend hcb
    have hc1 : (env.contextRaises || (env.sessionPresent && !env.startSessionOk)) = false := by
      rw [hcr, hsp, hss]
      rfl
    have hSPlen : (startPhase1 env (startCAS s).2).buffer.length ≤ bufferCapacity := by
      rw [startPhase1]
      refine foldl_bufferChunk_length_le _ _ ?_
      split
      · exact Nat.zero_le _
      · exact Nat.zero_le _
    have hfl := flushChunks_all env.sendOk (startPhase1 env (startCAS s).2).buffer
      maxFlushChunks (fun c _ => hsend c) hSPlen
    rw [startAssistantMode, if_pos hm]
    show (startBody env (startCAS s).2).result = CallResult.ok false ∧
      (∀ n ∈ (startPhase1 env (startCAS s).2).buffer,
        CEvent.flushedChunk n ∈
          notify env ConnMode.transitioning ++ (startBody env (startCAS s).2).events) ∧
      (∀ l, CEvent.discarded l ∈
          notify env ConnMode.transitioning ++ (startBody env (startCAS s).2).events →
        l = []) ∧
      (startBody env (startCAS s).2).state.buffer = [] ∧
      (startBody env (startCAS s).2).state.buffering = false ∧
      (startBody env (startCAS s).2).state.mode = ConnMode.transcription
    rw [startBody, if_neg (by rw [hc1]; exact Bool.false_ne_true), if_pos hcb,
        stopAudioBuffering_flush env _ hsp hact, hfl, startRollback,
        stopAudioBuffering_discard]
    refine ⟨rfl, ?_, ?_, rfl, rfl, rfl⟩
    · intro n hn
      refine List.mem_append.mpr (Or.inr ?_)
      refine List.mem_append.mpr (Or.inl ?_)
      refine List.mem_append.mpr (Or.inl ?_)
      refine List.mem_append.mpr (Or.inl ?_)
      refine List.mem_append.mpr (Or.inl ?_)
      exact List.mem_map_of_mem _ hn
    · intro l hl
      rcases List.mem_append.mp hl with h | h
      · exact absurd h (discarded_notMem_notify env _ l)
      · rcases List.mem_append.mp h with h2 | h2
        · rcases List.mem_append.mp h2 with h3 | h3
          · rcases List.mem_append.mp h3 with h4 | h4
            · rcases List.mem_append.mp h4 with h5 | h5
              · rcases List.mem_map.mp h5 with ⟨x, -, hx⟩
                cases hx
              · simp at h5
            · simp only [List.mem_singleton, CEvent.discarded.injEq] at h4
              rw [h4]
          · revert h3
            split <;> simp
        · exact absurd h2 (discarded_notMem_notify env _ l)
  · -- end failing only at the final transcription notification: already discarded
    intro hm hnt h1 h2 hct
    have hp : env.cbPresent = true := by
      cases hcp : env.cbPresent
      · rw [hcp, Bool.false_and] at hct
        cases hct
      · rfl
    rw [endAssistantMode, if_pos hm,
        if_neg (by rw [hnt]; exact Bool.false_ne_true),
        if_neg (by rw [h1]; exact Bool.false_ne_true),
        if_neg (by rw [h2]; exact Bool.false_ne_true),
        if_pos hct, stopAudioBuffering_discard, endExcept, if_pos hp]
    refine ⟨?_, ?_, ?_, rfl⟩
    · by_cases hra : env.cbRaises ConnMode.assistant = true
      · right
        show (if env.cbRaises ConnMode.assistant = true then CallResult.raised
              else CallResult.ok false) = CallResult.raised
        rw [if_pos hra]
      · left
        show (if env.cbRaises ConnMode.assistant = true then CallResult.raised
              else CallResult.ok false) = CallResult.ok false
        rw [if_neg hra]
    · refine List.mem_append.mpr (Or.inl ?_)
      refine List.mem_append.mpr (Or.inl ?_)
      refine List.mem_append.mpr (Or.inr ?_)
      exact List.mem_singleton.mpr rfl
    · intro n hn
      rcases List.mem_append.mp hn with h | h
      · rcases List.mem_append.mp h with h3 | h3
        · rcases List.mem_append.mp h3 with h4 | h4
          · exact flushed_notMem_notify env _ n h4
          · simp at h4
        · simp at h3
      · simp at h

/-- Witness for `transition_buffer_bounded_fifo`: three chunks arrive
during a benign successful start; they are flushed in arrival order and
the call ends with an empty buffer. -/
theorem transition_buffer_bounded_fifo_witness :
    (startAssistantMode { benignEnv with arrivals := [1, 2, 3] } initCoord).result =
      CallResult.ok true ∧
    (startAssistantMode { benignEnv with arrivals := [1, 2, 3] } initCoord).state.buffer =
      [] ∧
    (startPhase1 { benignEnv with arrivals := [1, 2, 3] }
      (startCAS initCoord).2).buffer = [1, 2, 3] := by
  have h := (transition_buffer_bounded_fifo
    { benignEnv with arrivals := [1, 2, 3] } initCoord).2.2.1
    rfl rfl rfl rfl rfl (fun _ => rfl) rfl
  exact ⟨h.1, h.2.1, h.2.2.2.2.2 (by decide)⟩

/-- C6 counterexample: a FAILED reverse transition (the session's
end_session raises) neither flushes nor discards the transition buffer —
end_assistant_mode's except-handler never calls _stop_audio_buffering, so
buffering stays active, the buffering consumer stays on the bus, and the
buffered chunk is still sitting in the buffer; the claim's
"each transition flushes or discards exactly once" is violated. -/
theorem transition_buffer_leak_counterexample :
    (endAssistantMode { benignEnv with endSessionRaises := true, arrivals := [7] }
      assistCoord).state.buffering = true ∧
    Consumer.bufferer ∈
      (endAssistantMode { benignEnv with endSessionRaises := true, arrivals := [7] }
        assistCoord).state.bus.consumers ∧
    (endAssistantMode { benignEnv with endSessionRaises := true, arrivals := [7] }
      assistCoord).state.buffer = [7] ∧
    (endAssistantMode { benignEnv with endSessionRaises := true, arrivals := [7] }
      assistCoord).events =
      [CEvent.notified ConnMode.transitioning, CEvent.notified ConnMode.assistant] := by
  decide

end AlwaysOn
